import Mathlib

/-!
Verification of the mind-map editor's geometric layout and command layer.

The definitions below are a shallow embedding of the Python sources
(`src/view.py`, `src/node.py`, `src/connection.py`, `src/commands.py`).
Coordinates are modelled as rationals (the Python code uses IEEE doubles;
all arithmetic appearing in the embedded functions is exact on the inputs
we quantify over).  Qt scene objects are modelled by plain records; the
scene's item list is modelled as a Lean list.
-/

set_option maxHeartbeats 1000000

namespace MindMap

/-- A 2-D point (`QPointF`). -/
structure Pt where
  x : ℚ
  y : ℚ
  deriving DecidableEq, Repr

/-- An axis-aligned rectangle given by left/top corner and size (`QRectF`). -/
structure Rect where
  x : ℚ
  y : ℚ
  w : ℚ
  h : ℚ
  deriving DecidableEq, Repr

def Rect.right (r : Rect) : ℚ := r.x + r.w

def Rect.bottom (r : Rect) : ℚ := r.y + r.h

def Rect.centerY (r : Rect) : ℚ := r.y + r.h / 2

def Rect.centerX (r : Rect) : ℚ := r.x + r.w / 2

/-- `QRectF.intersects`: true when the overlap has nonempty area. -/
def Rect.intersects (a b : Rect) : Bool :=
  decide (a.x < b.right) && decide (b.x < a.right) &&
  decide (a.y < b.bottom) && decide (b.y < a.bottom)

/-- Python's `round` (round half to even) on a rational. -/
def roundHalfEven (q : ℚ) : ℤ :=
  let fl := ⌊q⌋
  let fr := q - fl
  if fr < 1/2 then fl
  else if 1/2 < fr then fl + 1
  else if fl % 2 = 0 then fl else fl + 1

/-- Grid settings of `MindMapView` (`grid_snap_enabled`, `grid_size`,
`snap_threshold`). -/
structure GridSettings where
  gridSnapEnabled : Bool
  gridSize : ℚ
  snapThreshold : ℚ
  deriving DecidableEq, Repr

/-- The grid multiple used by `snap_to_grid`: `round(pos/grid_size) * grid_size`. -/
def gridMultiple (gridSize p : ℚ) : ℚ :=
  (roundHalfEven (p / gridSize) : ℤ) * gridSize

/-- One axis of `MindMapView.snap_to_grid`: snap `p` to the rounded grid
multiple when within `threshold` of it. -/
def snapCoord (gridSize threshold p : ℚ) : ℚ :=
  if |p - gridMultiple gridSize p| ≤ threshold then gridMultiple gridSize p else p

/-- `MindMapView.snap_to_grid` (threshold argument defaulted to
`self.snap_threshold`, as in every call site). -/
def snapToGrid (g : GridSettings) (p : Pt) : Pt :=
  if ¬ g.gridSnapEnabled then p
  else ⟨snapCoord g.gridSize g.snapThreshold p.x,
        snapCoord g.gridSize g.snapThreshold p.y⟩

lemma roundHalfEven_intCast (n : ℤ) : roundHalfEven (n : ℚ) = n := by
  unfold roundHalfEven
  simp

lemma abs_sub_roundHalfEven_le (q : ℚ) : |q - roundHalfEven q| ≤ 1/2 := by
  unfold roundHalfEven
  have hfl : (⌊q⌋ : ℚ) ≤ q := Int.floor_le q
  have hlt : q < ⌊q⌋ + 1 := Int.lt_floor_add_one q
  by_cases h1 : q - ⌊q⌋ < 1/2
  · simp only [h1, if_true]
    rw [abs_of_nonneg (by linarith)]
    linarith
  · simp only [h1, if_false]
    by_cases h2 : (1:ℚ)/2 < q - ⌊q⌋
    · simp only [h2, if_true]
      push_cast
      rw [abs_of_nonpos (by linarith)]
      linarith
    · have heq : q - ⌊q⌋ = 1/2 := le_antisymm (not_lt.mp h2) (not_lt.mp h1)
      simp only [h2, if_false]
      by_cases h3 : ⌊q⌋ % 2 = 0
      · simp only [h3, if_true]
        rw [abs_of_nonneg (by linarith)]
        linarith
      · simp only [h3, if_false]
        push_cast
        rw [abs_of_nonpos (by linarith)]
        linarith

/-- `roundHalfEven q` is a nearest integer to `q`. -/
lemma roundHalfEven_nearest (q : ℚ) (k : ℤ) :
    |q - roundHalfEven q| ≤ |q - k| := by
  by_cases hk : k = roundHalfEven q
  · subst hk; exact le_refl _
  · have h1 := abs_sub_roundHalfEven_le q
    by_contra hcon
    push_neg at hcon
    have h2 : |q - k| < 1/2 := lt_of_lt_of_le hcon h1
    have h3 : |(roundHalfEven q : ℚ) - k| < 1 := by
      calc |(roundHalfEven q : ℚ) - k| = |(q - k) - (q - roundHalfEven q)| := by ring_nf
        _ ≤ |q - k| + |q - roundHalfEven q| := abs_sub _ _
        _ < 1/2 + 1/2 := by
            exact add_lt_add_of_lt_of_le h2 h1
        _ = 1 := by norm_num
    have h4 : ((roundHalfEven q - k : ℤ) : ℚ) = (roundHalfEven q : ℚ) - k := by push_cast; ring
    rw [← h4, ← Int.cast_abs] at h3
    have h5 : |roundHalfEven q - k| < (1 : ℤ) := by exact_mod_cast h3
    have h6 : roundHalfEven q - k = 0 := Int.abs_lt_one_iff.mp h5
    exact hk (by omega)

/-- `gridMultiple` is a nearest multiple of the grid size. -/
lemma gridMultiple_nearest (gridSize p : ℚ) (hgs : 0 < gridSize) (k : ℤ) :
    |p - gridMultiple gridSize p| ≤ |p - (k : ℚ) * gridSize| := by
  have hne : gridSize ≠ 0 := ne_of_gt hgs
  have h1 := roundHalfEven_nearest (p / gridSize) k
  have e1 : p - gridMultiple gridSize p
      = gridSize * (p / gridSize - (roundHalfEven (p / gridSize) : ℚ)) := by
    unfold gridMultiple; field_simp; ring
  have e2 : p - (k : ℚ) * gridSize = gridSize * (p / gridSize - (k : ℚ)) := by
    field_simp; ring
  rw [e1, e2, abs_mul, abs_mul]
  exact mul_le_mul_of_nonneg_left h1 (abs_nonneg gridSize)

lemma gridMultiple_self (gridSize : ℚ) (hgs : gridSize ≠ 0) (k : ℤ) :
    gridMultiple gridSize ((k : ℚ) * gridSize) = (k : ℚ) * gridSize := by
  unfold gridMultiple
  have : (k : ℚ) * gridSize / gridSize = (k : ℚ) := by field_simp
  rw [this, roundHalfEven_intCast]

lemma snapCoord_idem (gridSize threshold p : ℚ) (hgs : gridSize ≠ 0)
    (ht : 0 ≤ threshold) :
    snapCoord gridSize threshold (snapCoord gridSize threshold p)
      = snapCoord gridSize threshold p := by
  unfold snapCoord
  by_cases hc : |p - gridMultiple gridSize p| ≤ threshold
  · simp only [hc, if_true]
    have h0 : gridMultiple gridSize p
        = ((roundHalfEven (p / gridSize) : ℤ) : ℚ) * gridSize := rfl
    rw [h0, gridMultiple_self gridSize hgs]
    simp [ht]
  · simp only [hc, if_false]

lemma snapCoord_moves_le (gridSize threshold p : ℚ) (ht : 0 ≤ threshold) :
    |snapCoord gridSize threshold p - p| ≤ threshold := by
  unfold snapCoord
  by_cases hc : |p - gridMultiple gridSize p| ≤ threshold
  · simp only [hc, if_true]
    rwa [abs_sub_comm] at hc
  · simp only [hc, if_false]
    simpa using ht

/-- Claim C10: `snap_to_grid` returns its input unchanged when grid snapping is
disabled; when enabled, each axis of the result is either the input coordinate
(when its distance to the nearest grid multiple exceeds the snap threshold) or
that nearest multiple (otherwise), so each coordinate moves by at most the
threshold, and the function is idempotent. -/
theorem snap_to_grid_axiswise_nearest_and_idempotent
    (g : GridSettings) (p : Pt)
    (hgs : 0 < g.gridSize) (ht : 0 ≤ g.snapThreshold) :
    (¬ g.gridSnapEnabled → snapToGrid g p = p) ∧
    (g.gridSnapEnabled →
      (snapToGrid g p).x = snapCoord g.gridSize g.snapThreshold p.x ∧
      (snapToGrid g p).y = snapCoord g.gridSize g.snapThreshold p.y) ∧
    (∀ c : ℚ,
      (∀ k : ℤ, |c - gridMultiple g.gridSize c| ≤ |c - (k : ℚ) * g.gridSize|) ∧
      (g.snapThreshold < |c - gridMultiple g.gridSize c| →
        snapCoord g.gridSize g.snapThreshold c = c) ∧
      (|c - gridMultiple g.gridSize c| ≤ g.snapThreshold →
        snapCoord g.gridSize g.snapThreshold c = gridMultiple g.gridSize c ∧
        ∃ k : ℤ, gridMultiple g.gridSize c = (k : ℚ) * g.gridSize) ∧
      |snapCoord g.gridSize g.snapThreshold c - c| ≤ g.snapThreshold) ∧
    snapToGrid g (snapToGrid g p) = snapToGrid g p := by
  refine ⟨fun h => by simp [snapToGrid, h], fun h => by simp [snapToGrid, h], ?_, ?_⟩
  · intro c
    refine ⟨fun k => gridMultiple_nearest g.gridSize c hgs k, ?_, ?_, ?_⟩
    · intro hfar
      unfold snapCoord
      simp [not_le.mpr hfar]
    · intro hnear
      refine ⟨by unfold snapCoord; simp [hnear], ⟨roundHalfEven (c / g.gridSize), rfl⟩⟩
    · exact snapCoord_moves_le _ _ _ ht
  · unfold snapToGrid
    by_cases h : g.gridSnapEnabled
    · simp only [h, not_true, if_false]
      have hx := snapCoord_idem g.gridSize g.snapThreshold p.x (ne_of_gt hgs) ht
      have hy := snapCoord_idem g.gridSize g.snapThreshold p.y (ne_of_gt hgs) ht
      simp [hx, hy]
    · simp [h]

/-- Witness for C10 at a concrete input (grid 20, threshold 10, point (47, -3)). -/
theorem snap_to_grid_axiswise_nearest_and_idempotent_witness :
    (0 : ℚ) < (20 : ℚ) ∧ (0 : ℚ) ≤ (10 : ℚ) ∧
    snapToGrid ⟨true, 20, 10⟩ (snapToGrid ⟨true, 20, 10⟩ ⟨47, -3⟩)
      = snapToGrid ⟨true, 20, 10⟩ ⟨47, -3⟩ :=
  ⟨by norm_num, by norm_num,
    (snap_to_grid_axiswise_nearest_and_idempotent ⟨true, 20, 10⟩ ⟨47, -3⟩
      (by norm_num) (by norm_num)).2.2.2⟩

/-! ### Node and connection model -/

/-- A `NodeItem` (`node.py`): centred position, fixed size (constructor defaults
128x72), a text label and the `_edges` adjacency list holding
`(connection id, other node id)` pairs.  Node identity (Python object identity)
is modelled by `nid`. -/
structure NodeItem where
  nid : Nat
  pos : Pt
  w : ℚ
  h : ℚ
  text : String
  edges : List (Nat × Nat)
  deriving DecidableEq, Repr

/-- `QGraphicsItem.sceneBoundingRect` of a node: its rect `(-w/2,-h/2,w,h)`
translated to its scene position. -/
def NodeItem.sceneRect (n : NodeItem) : Rect :=
  ⟨n.pos.x - n.w / 2, n.pos.y - n.h / 2, n.w, n.h⟩

/-- A line segment as stored in a `QGraphicsLineItem` (`setLine(x1,y1,x2,y2)`). -/
structure Seg where
  x1 : ℚ
  y1 : ℚ
  x2 : ℚ
  y2 : ℚ
  deriving DecidableEq, Repr

/-- The three segments of a `CrankConnection` (`horizontal_line1`,
`vertical_line`, `horizontal_line2`). -/
structure CrankLines where
  h1 : Seg
  v : Seg
  h2 : Seg
  deriving DecidableEq, Repr

/-- `CrankConnection._get_unified_vertical_x_position`: source right edge + 20. -/
def unifiedVerticalX (sourceRect : Rect) : ℚ := sourceRect.right + 20

/-- `CrankConnection.update_connection` as a function of the two endpoint
scene rectangles. -/
def updateConnection (sourceRect targetRect : Rect) : CrankLines :=
  let startX := sourceRect.right
  let startY := sourceRect.centerY
  let endY := targetRect.centerY
  let vx := unifiedVerticalX sourceRect
  let endX0 := targetRect.x
  let endX1 := if endX0 < vx then targetRect.right else endX0
  let endX2 := if endX1 ≤ vx then vx + 30 else endX1
  let endX3 := if endX2 < vx then vx + 30 else endX2
  ⟨⟨startX, startY, vx, startY⟩, ⟨vx, startY, vx, endY⟩, ⟨vx, endY, endX3, endY⟩⟩

/-- Claim C9: after `update_connection` the vertical segment is truly vertical
with both endpoint X coordinates equal to the source's right edge + 20; any two
connections sharing the same source rectangle get the same vertical-segment X;
and the first segment is horizontal at the source's centre Y, running from the
source's right edge to that X. -/
theorem update_connection_vertical_bus_invariant (s t : Rect) :
    ((updateConnection s t).v.x1 = s.right + 20 ∧
     (updateConnection s t).v.x2 = s.right + 20) ∧
    (∀ t₂ : Rect, (updateConnection s t₂).v.x1 = (updateConnection s t).v.x1 ∧
                  (updateConnection s t₂).v.x2 = (updateConnection s t).v.x2) ∧
    ((updateConnection s t).h1.y1 = s.centerY ∧
     (updateConnection s t).h1.y2 = s.centerY ∧
     (updateConnection s t).h1.x1 = s.right ∧
     (updateConnection s t).h1.x2 = s.right + 20) :=
  ⟨⟨rfl, rfl⟩, fun _ => ⟨rfl, rfl⟩, rfl, rfl, rfl, rfl⟩

/-- A `CrankConnection` record: identity, endpoints (by node id) and the three
stored line segments.  `cid` models Python object identity of the connection. -/
structure Conn where
  cid : Nat
  source : Nat
  target : Nat
  lines : CrankLines
  deriving DecidableEq, Repr

/-- The live scene: all `NodeItem`s (in scene order), the
`MindMapView.connections` list, and counters supplying fresh identities for
newly created nodes/connections (Python object identity). -/
structure Doc where
  nodes : List NodeItem
  conns : List Conn
  nextId : Nat
  nextCid : Nat
  deriving DecidableEq, Repr

def Doc.find (d : Doc) (i : Nat) : Option NodeItem :=
  d.nodes.find? (fun n => decide (n.nid = i))

/-! ### C8: `_is_position_free` -/

/-- The candidate test rectangle built inside `_is_position_free`: the node
rectangle centred at `pos`, expanded by `min_spacing` on every side. -/
def candidateRect (pos : Pt) (nodeWidth nodeHeight minSpacing : ℚ) : Rect :=
  ⟨pos.x - nodeWidth / 2 - minSpacing, pos.y - nodeHeight / 2 - minSpacing,
   nodeWidth + minSpacing * 2, nodeHeight + minSpacing * 2⟩

/-- `MindMapView._is_position_free` (`view.py`): the expanded candidate
rectangle is tested against every node's scene bounding rectangle, and nothing
else. -/
def isPositionFree (pos : Pt) (nodeWidth nodeHeight minSpacing : ℚ)
    (allNodes : List NodeItem) : Bool :=
  allNodes.all (fun n =>
    !(candidateRect pos nodeWidth nodeHeight minSpacing).intersects n.sceneRect)

/-- Bounding rectangle of a rendered connector segment (used only to state the
claim's connector-segment condition, which the code does not implement). -/
def segBBox (s : Seg) : Rect :=
  ⟨min s.x1 s.x2, min s.y1 s.y2, |s.x2 - s.x1|, |s.y2 - s.y1|⟩

/-- Claim C8 (amended): `_is_position_free` succeeds exactly when the candidate
rectangle expanded by the spacing margin intersects no node's bounding
rectangle; connector segments are never examined (the function does not even
receive the connection list, and has no exclusion parameter). -/
theorem is_position_free_checks_nodes_only
    (pos : Pt) (nodeWidth nodeHeight minSpacing : ℚ) (allNodes : List NodeItem) :
    isPositionFree pos nodeWidth nodeHeight minSpacing allNodes = true ↔
    ∀ n ∈ allNodes,
      (candidateRect pos nodeWidth nodeHeight minSpacing).intersects n.sceneRect
        = false := by
  simp [isPositionFree]

/-- Node `A` of the C8 counterexample scene. -/
def c8NodeA : NodeItem := ⟨0, ⟨0, 0⟩, 128, 72, "A", [(0, 1)]⟩

/-- Node `B` of the C8 counterexample scene. -/
def c8NodeB : NodeItem := ⟨1, ⟨600, 300⟩, 128, 72, "B", [(0, 0)]⟩

/-- Counterexample to claim C8: with nodes `A` and `B` connected by a rendered
crank connector, the candidate at (90,150) expanded by the 20-unit margin is
crossed by the connector's vertical segment (its bounding rectangle intersects
the expanded candidate), the connector is attached to neither the candidate nor
any excluded node, yet `_is_position_free` returns `True`. -/
theorem is_position_free_ignores_connectors_cex :
    isPositionFree ⟨90, 150⟩ 128 72 20 [c8NodeA, c8NodeB] = true ∧
    (candidateRect ⟨90, 150⟩ 128 72 20).intersects
      (segBBox (updateConnection c8NodeA.sceneRect c8NodeB.sceneRect).v) = true := by
  constructor
  · norm_num [isPositionFree, candidateRect, Rect.intersects, NodeItem.sceneRect,
      Rect.right, Rect.bottom, c8NodeA, c8NodeB]
  · norm_num [candidateRect, Rect.intersects, segBBox, updateConnection,
      unifiedVerticalX, NodeItem.sceneRect, Rect.right, Rect.bottom,
      Rect.centerY, c8NodeA, c8NodeB]

/-! ### C5: `push_down_until_no_collision` -/

/-- The bounding-box dictionaries `{x, y, width, height, bottom}` passed
around by `push_down_until_no_collision` and friends. -/
structure BBox where
  x : ℚ
  y : ℚ
  w : ℚ
  h : ℚ
  bottom : ℚ
  deriving DecidableEq, Repr

/-- `MindMapView._check_collision`: does `bbox` overlap (strictly) the
rectangle `{x: node.pos, size: node.rect}` of any node other than the excluded
one?  (As in the source, the node's centre position is used as the rectangle
corner.) -/
def checkCollision (bbox : BBox) (allNodes : List NodeItem)
    (excludeId : Option Nat) : Bool :=
  allNodes.any (fun n =>
    if excludeId = some n.nid then false
    else
      decide (bbox.x < n.pos.x + n.w) && decide (n.pos.x < bbox.x + bbox.w) &&
      decide (bbox.y < n.pos.y + n.h) && decide (n.pos.y < bbox.y + bbox.h))

/-- One iteration of the loop body of `push_down_until_no_collision`:
`bbox["y"] += step; bbox["bottom"] = bbox["y"] + bbox["height"]`. -/
def pushBump (step : ℚ) (b : BBox) : BBox :=
  { b with y := b.y + step, bottom := b.y + step + b.h }

/-- `push_down_until_no_collision`, with the unbounded `while` loop rendered as
fuelled recursion (the Python loop has no iteration cap; the theorem below
shows the fuel is eventually sufficient whenever `step > 0`). -/
def pushDownFuel (allNodes : List NodeItem) (excludeId : Option Nat)
    (step : ℚ) : Nat → BBox → BBox
  | 0, b => b
  | fuel + 1, b =>
      if checkCollision b allNodes excludeId
      then pushDownFuel allNodes excludeId step fuel (pushBump step b)
      else b

/-- An upper bound past which `checkCollision` must fail: the largest
`pos.y + h` over the node list. -/
def maxNodeBottom (allNodes : List NodeItem) : ℚ :=
  allNodes.foldl (fun acc n => max acc (n.pos.y + n.h)) 0

/-- `overlaps_vertically` from `_calculate_smart_position`:
`not (a.bottom() <= b.top() or a.top() >= b.bottom())`. -/
def overlapsVertically (a b : Rect) : Bool :=
  !(decide (a.bottom ≤ b.y) || decide (b.bottom ≤ a.y))

/-- The "existing children" scan of `_calculate_smart_position`: partners in
the parent's `_edges` list lying strictly to the parent's right. -/
def smartChildNodes (d : Doc) (parent : NodeItem) : List NodeItem :=
  parent.edges.filterMap (fun e =>
    match d.find e.2 with
    | some c => if parent.pos.x < c.pos.x then some c else none
    | none => none)

/-- The tentative same-row rectangle used by the collision scan of
`_calculate_smart_position`. -/
def smartTentativeRect (parent : NodeItem) : Rect :=
  ⟨parent.sceneRect.right + 40, parent.pos.y - 72 / 2, 128, 72⟩

/-- The `has_collision` scan of `_calculate_smart_position`: some right-side
child (left edge at or beyond the parent's right edge) vertically overlaps the
tentative same-row rectangle. -/
def smartHasCollision (d : Doc) (parent : NodeItem) : Bool :=
  (smartChildNodes d parent).any (fun ch =>
    decide (parent.sceneRect.right ≤ ch.sceneRect.x) &&
    overlapsVertically ch.sceneRect (smartTentativeRect parent))

/-- `MindMapView._calculate_smart_position`. -/
def calculateSmartPosition (d : Doc) (g : GridSettings) (parent : NodeItem) : Pt :=
  let pRight := parent.sceneRect.right
  let lowestBottom := (smartChildNodes d parent).foldl
    (fun acc ch => if acc < ch.sceneRect.bottom then ch.sceneRect.bottom else acc)
    parent.sceneRect.bottom
  let targetY := if smartHasCollision d parent
    then lowestBottom + 20 + 72 / 2 else parent.pos.y
  let targetX := pRight + 40 + 128 / 2
  if g.gridSnapEnabled then snapToGrid g ⟨targetX, targetY⟩ else ⟨targetX, targetY⟩

lemma foldl_if_eq_foldl_max (l : List NodeItem) (a : ℚ) :
    l.foldl (fun acc ch => if acc < ch.sceneRect.bottom then ch.sceneRect.bottom else acc) a
      = l.foldl (fun acc ch => max acc ch.sceneRect.bottom) a := by
  induction l generalizing a with
  | nil => rfl
  | cons x xs ih =>
      simp only [List.foldl_cons]
      rw [ih]
      congr 1
      by_cases h : a < x.sceneRect.bottom
      · simp [h, max_eq_right (le_of_lt h)]
      · simp [h, max_eq_left (not_lt.mp h)]

lemma init_le_foldl_max (l : List NodeItem) (a : ℚ) :
    a ≤ l.foldl (fun acc ch => max acc ch.sceneRect.bottom) a := by
  induction l generalizing a with
  | nil => simp
  | cons x xs ih =>
      simp only [List.foldl_cons]
      exact le_trans (le_max_left _ _) (ih _)

lemma mem_le_foldl_max (l : List NodeItem) (a : ℚ) (ch : NodeItem) (h : ch ∈ l) :
    ch.sceneRect.bottom ≤ l.foldl (fun acc m => max acc m.sceneRect.bottom) a := by
  induction l generalizing a with
  | nil => cases h
  | cons x xs ih =>
      rcases List.mem_cons.mp h with h1 | h2
      · subst h1
        simp only [List.foldl_cons]
        exact le_trans (le_max_right _ _) (init_le_foldl_max _ _)
      · simp only [List.foldl_cons]
        exact ih _ h2

/-- Claim C4 (amended): with grid snapping disabled, `_calculate_smart_position`
returns X = parent right edge + 40 + 64 always; it returns Y = the parent's
centre Y unless some connected right-side child vertically overlaps the
tentative same-row rectangle, in which case Y = max(parent's bottom edge,
bottom-most right-side child's bottom edge) + 20 + 36, which lies at or below
every such child's bottom edge plus the gap. -/
theorem calculate_smart_position_spec (d : Doc) (g : GridSettings)
    (parent : NodeItem) (hsnap : g.gridSnapEnabled = false) :
    (calculateSmartPosition d g parent).x = parent.sceneRect.right + 40 + 64 ∧
    (smartHasCollision d parent = false →
      (calculateSmartPosition d g parent).y = parent.pos.y) ∧
    (smartHasCollision d parent = true →
      (calculateSmartPosition d g parent).y
        = ((smartChildNodes d parent).foldl
            (fun acc ch => max acc ch.sceneRect.bottom)
            parent.sceneRect.bottom) + 20 + 36 ∧
      parent.sceneRect.bottom + 20 + 36 ≤ (calculateSmartPosition d g parent).y ∧
      ∀ ch ∈ smartChildNodes d parent,
        ch.sceneRect.bottom + 20 + 36 ≤ (calculateSmartPosition d g parent).y) := by
  unfold calculateSmartPosition
  simp only [hsnap, Bool.false_eq_true, if_false]
  refine ⟨by norm_num, fun hc => by simp [hc], fun hc => ?_⟩
  simp only [hc, if_true, foldl_if_eq_foldl_max]
  refine ⟨by norm_num, ?_, ?_⟩
  · have := init_le_foldl_max (smartChildNodes d parent) parent.sceneRect.bottom
    norm_num
    linarith
  · intro ch hch
    have := mem_le_foldl_max (smartChildNodes d parent) parent.sceneRect.bottom ch hch
    norm_num
    linarith

/-- Parent node of the C4 counterexample. -/
def c4Parent : NodeItem := ⟨0, ⟨0, 0⟩, 128, 72, "p", [(0, 1)]⟩

/-- Child node of the C4 counterexample: connected to the parent, lying to its
right but far below, so it does not vertically overlap the same-row band. -/
def c4Child : NodeItem := ⟨1, ⟨200, 500⟩, 128, 72, "c", [(0, 0)]⟩

/-- The C4 counterexample document. -/
def c4Doc : Doc :=
  ⟨[c4Parent, c4Child],
   [⟨0, 0, 1, ⟨⟨0, 0, 0, 0⟩, ⟨0, 0, 0, 0⟩, ⟨0, 0, 0, 0⟩⟩⟩], 2, 1⟩

/-- Counterexample to claim C4: the parent has an existing child (a connected
node lying to its right), yet the returned Y is the parent's centre Y (0), not
the bottom-most child's bottom edge + 20 + 36 = 592, because the child does not
vertically overlap the tentative same-row rectangle. -/
theorem calculate_smart_position_children_row_cex :
    smartChildNodes c4Doc c4Parent = [c4Child] ∧
    (calculateSmartPosition c4Doc ⟨false, 20, 10⟩ c4Parent).y = 0 ∧
    c4Child.sceneRect.bottom + 20 + 72 / 2 = 592 ∧
    (calculateSmartPosition c4Doc ⟨false, 20, 10⟩ c4Parent).y ≠ 592 := by
  refine ⟨?_, ?_, ?_, ?_⟩
  · norm_num [smartChildNodes, c4Doc, c4Parent, c4Child, Doc.find, List.find?,
      List.filterMap_cons, List.filterMap_nil]
  · norm_num [calculateSmartPosition, smartHasCollision, smartChildNodes,
      smartTentativeRect, overlapsVertically, c4Doc, c4Parent, c4Child,
      Doc.find, List.find?, List.filterMap_cons, List.filterMap_nil,
      NodeItem.sceneRect, Rect.right, Rect.bottom]
  · norm_num [c4Child, NodeItem.sceneRect, Rect.bottom]
  · norm_num [calculateSmartPosition, smartHasCollision, smartChildNodes,
      smartTentativeRect, overlapsVertically, c4Doc, c4Parent, c4Child,
      Doc.find, List.find?, List.filterMap_cons, List.filterMap_nil,
      NodeItem.sceneRect, Rect.right, Rect.bottom]

/-- Witness for C4's amended theorem at a concrete input. -/
theorem calculate_smart_position_spec_witness :
    (GridSettings.mk false 20 10).gridSnapEnabled = false ∧
    (calculateSmartPosition c4Doc ⟨false, 20, 10⟩ c4Parent).x
      = c4Parent.sceneRect.right + 40 + 64 :=
  ⟨rfl, (calculate_smart_position_spec c4Doc ⟨false, 20, 10⟩ c4Parent rfl).1⟩

end MindMap

/-! ### C6: subtrees, vertical translation and `_normalize_subtree_spacing` -/

namespace MindMap

/-- `CrankConnection.update_connection` applied to a stored connection,
recomputing its segments from the endpoints' current scene rectangles. -/
def updateConnGeom (d : Doc) (c : Conn) : Conn :=
  match d.find c.source, d.find c.target with
  | some ns, some nt => { c with lines := updateConnection ns.sceneRect nt.sceneRect }
  | _, _ => c

/-- Recompute every connection's geometry (the `update_connection` loops that
end every layout helper, and `MindMapView.relayout`). -/
def updateAllConns (d : Doc) : Doc :=
  { d with conns := d.conns.map (updateConnGeom d) }

/-- Current position of the node with id `i` (the scene lookup that
`node.pos()` performs implicitly through object identity). -/
def posOf (d : Doc) (i : Nat) : Pt :=
  ((d.find i).map (·.pos)).getD ⟨0, 0⟩

/-- Height of the node with id `i`. -/
def heightOf (d : Doc) (i : Nat) : ℚ :=
  ((d.find i).map (·.h)).getD 0

/-- `MindMapView._get_child_nodes`: scene nodes (in scene order) other than the
parent for which some connection has the parent as source and the node as
target. -/
def childIds (d : Doc) (parentId : Nat) : List Nat :=
  (d.nodes.filter (fun n =>
    decide (n.nid ≠ parentId) &&
    d.conns.any (fun c => decide (c.source = parentId) && decide (c.target = n.nid)))).map
    (·.nid)

/-- `MindMapView.get_descendants`, with the recursion fuelled; fuel
`d.nodes.length` (used below) is sufficient on every document on which the
Python recursion terminates, since child chains then visit distinct nodes. -/
def getDescendantsFuel (d : Doc) : Nat → Nat → List Nat
  | 0, _ => []
  | fuel + 1, root =>
      (childIds d root).flatMap (fun c => c :: getDescendantsFuel d fuel c)

def getDescendants (d : Doc) (root : Nat) : List Nat :=
  getDescendantsFuel d d.nodes.length root

/-- One `node.setPos(pos.x(), pos.y() + dy)` of `_translate_subtree_vertical`. -/
def trans1 (dy : ℚ) (i : Nat) (d : Doc) : Doc :=
  { d with nodes := d.nodes.map (fun n =>
      if n.nid = i then { n with pos := ⟨n.pos.x, n.pos.y + dy⟩ } else n) }

/-- The per-node loop of `_translate_subtree_vertical` over
`[root] + get_descendants(root)`. -/
def foldTrans (dy : ℚ) (l : List Nat) (d : Doc) : Doc :=
  l.foldl (fun acc i => trans1 dy i acc) d

/-- `MindMapView._translate_subtree_vertical`: shift the root and all its
descendants by `dy` in Y, then update every connection. -/
def translateSubtreeVertical (d : Doc) (rootId : Nat) (dy : ℚ) : Doc :=
  updateAllConns (foldTrans dy (rootId :: getDescendants d rootId) d)

/-- The running min/max combination step of `get_subtree_bbox`. -/
def bboxUnion (a b : BBox) : BBox :=
  ⟨min a.x b.x, min a.y b.y,
   max (a.x + a.w) (b.x + b.w) - min a.x b.x,
   max (a.y + a.h) (b.y + b.h) - min a.y b.y,
   max (a.y + a.h) (b.y + b.h)⟩

/-- The root-only bounding box of `get_subtree_bbox`: the node's centre
position is used as the box corner, exactly as in the source. -/
def nodeBaseBBox (n : NodeItem) : BBox :=
  ⟨n.pos.x, n.pos.y, n.w, n.h, n.pos.y + n.h⟩

/-- `MindMapView.get_subtree_bbox` (with `include_descendants = True`),
fuelled as for `getDescendantsFuel`. -/
def getSubtreeBBoxFuel (d : Doc) : Nat → Nat → BBox
  | 0, rootId =>
      match d.find rootId with
      | none => ⟨0, 0, 0, 0, 0⟩
      | some n => nodeBaseBBox n
  | fuel + 1, rootId =>
      match d.find rootId with
      | none => ⟨0, 0, 0, 0, 0⟩
      | some n =>
          (childIds d rootId).foldl
            (fun acc c => bboxUnion acc (getSubtreeBBoxFuel d fuel c))
            (nodeBaseBBox n)

def getSubtreeBBox (d : Doc) (rootId : Nat) : BBox :=
  getSubtreeBBoxFuel d d.nodes.length rootId

/-- "`d'` has the same nodes as `d`, in order, with identical identities,
sizes, texts, adjacency and X coordinates, and with Y coordinates not below
those of `d`" — the claimed one-directionality of the spacing pass. -/
def NodesPushedDown (d d' : Doc) : Prop :=
  d'.nodes.length = d.nodes.length ∧
  ∀ k (hk : k < d.nodes.length) (hk' : k < d'.nodes.length),
    (d'.nodes.get ⟨k, hk'⟩).nid = (d.nodes.get ⟨k, hk⟩).nid ∧
    (d'.nodes.get ⟨k, hk'⟩).w = (d.nodes.get ⟨k, hk⟩).w ∧
    (d'.nodes.get ⟨k, hk'⟩).h = (d.nodes.get ⟨k, hk⟩).h ∧
    (d'.nodes.get ⟨k, hk'⟩).text = (d.nodes.get ⟨k, hk⟩).text ∧
    (d'.nodes.get ⟨k, hk'⟩).edges = (d.nodes.get ⟨k, hk⟩).edges ∧
    (d'.nodes.get ⟨k, hk'⟩).pos.x = (d.nodes.get ⟨k, hk⟩).pos.x ∧
    (d.nodes.get ⟨k, hk⟩).pos.y ≤ (d'.nodes.get ⟨k, hk'⟩).pos.y

lemma nodesPushedDown_refl (d : Doc) : NodesPushedDown d d := by
  refine ⟨rfl, fun k hk hk' => ?_⟩
  exact ⟨rfl, rfl, rfl, rfl, rfl, rfl, le_refl _⟩

lemma nodesPushedDown_updateAllConns (d : Doc) :
    NodesPushedDown d (updateAllConns d) :=
  nodesPushedDown_refl d

end MindMap

namespace MindMap

end MindMap

/-! ### Command layer: scene operations (`view.py`, `commands.py`) -/

namespace MindMap

/-- `node.setPos(p)`. -/
def Doc.setPos (d : Doc) (i : Nat) (p : Pt) : Doc :=
  { d with nodes := d.nodes.map (fun n => if n.nid = i then { n with pos := p } else n) }

/-- The elementwise effect of a sequence of `setPos` calls on one node. -/
def applyPairs (pairs : List (Nat × Pt)) (n : NodeItem) : NodeItem :=
  pairs.foldl (fun m q => if m.nid = q.1 then { m with pos := q.2 } else m) n

/-- A sequence of `setPos` calls. -/
def setPosList (d : Doc) (pairs : List (Nat × Pt)) : Doc :=
  pairs.foldl (fun acc q => acc.setPos q.1 q.2) d

/-- `_update_attached_lines` on node `i`: recompute the geometry of every
connection recorded in its `_edges` list. -/
def refreshNodeConns (d : Doc) (i : Nat) : Doc :=
  match d.find i with
  | none => d
  | some n =>
      { d with conns := d.conns.map (fun c =>
          if n.edges.any (fun e => decide (e.1 = c.cid)) then updateConnGeom d c
          else c) }

/-- `NodeItem.attach_edge`: append to `_edges`, then `_update_attached_lines`. -/
def attachEdge (d : Doc) (i : Nat) (cid other : Nat) : Doc :=
  refreshNodeConns
    { d with nodes := d.nodes.map (fun n =>
        if n.nid = i then { n with edges := n.edges ++ [(cid, other)] } else n) }
    i

/-- `NodeItem.detach_edge`: keep the pairs with `c != connection or
n != other_node`. -/
def detachEdge (d : Doc) (i : Nat) (cid other : Nat) : Doc :=
  { d with nodes := d.nodes.map (fun n =>
      if n.nid = i then
        { n with edges := n.edges.filter (fun e =>
            !decide (e.1 = cid) || !decide (e.2 = other)) }
      else n) }

/-- `MindMapView._create_edge`: build the crank geometry, attach the new
connection to both endpoints' `_edges` lists and append it to
`self.connections`.  The fresh connection identity is `d.nextCid`. -/
def createEdge (d : Doc) (s t : Nat) : Doc :=
  let lines := match d.find s, d.find t with
    | some ns, some nt => updateConnection ns.sceneRect nt.sceneRect
    | _, _ => ⟨⟨0, 0, 0, 0⟩, ⟨0, 0, 0, 0⟩, ⟨0, 0, 0, 0⟩⟩
  let d1 := attachEdge (attachEdge d s d.nextCid t) t d.nextCid s
  { d1 with conns := d1.conns ++ [⟨d.nextCid, s, t, lines⟩], nextCid := d.nextCid + 1 }

/-- `MindMapView._find_collision_free_position`.  The fallback
`_find_nearest_free_position` samples ring positions with floating-point
trigonometry (`math.cos`/`math.sin` of 30-degree steps); that sampling is
abstracted as the parameter `spiral`. -/
def findCollisionFreePosition (spiral : Pt → List NodeItem → Pt) (pos : Pt)
    (allNodes : List NodeItem) : Pt :=
  if isPositionFree pos 128 72 20 allNodes then pos else spiral pos allNodes

/-- `push_down_until_no_collision` as called by the placement helpers
(step = `VERTICAL_GAP` = 60 > 0): the fuel bound is large enough to reach a
collision-free row, so this equals the Python `while` loop's result. -/
def pushDownBBox (allNodes : List NodeItem) (excludeId : Option Nat)
    (step : ℚ) (b : BBox) : BBox :=
  pushDownFuel allNodes excludeId step
    ((⌈(maxNodeBottom allNodes - b.y) / step⌉).toNat + 1) b

/-- `min(all_nodes, key=pos.x)`: the first node attaining the smallest X. -/
def argminXNode : List NodeItem → Option NodeItem
  | [] => none
  | n :: rest =>
      some (rest.foldl (fun acc m => if m.pos.x < acc.pos.x then m else acc) n)

/-- `MindMapView._get_child_nodes` (returning the node records themselves). -/
def childNodesOf (d : Doc) (parentId : Nat) : List NodeItem :=
  d.nodes.filter (fun n =>
    decide (n.nid ≠ parentId) &&
    d.conns.any (fun c => decide (c.source = parentId) && decide (c.target = n.nid)))

/-- `MindMapView._get_all_parent_nodes`: the leftmost (centre) node plus its
direct children. -/
def getAllParentNodes (d : Doc) : List NodeItem :=
  match argminXNode d.nodes with
  | none => []
  | some center => center :: childNodesOf d center.nid

/-- `MindMapView.calculate_parent_insert_position`. -/
def calculateParentInsertPosition (d : Doc) (g : GridSettings)
    (referenceParent : NodeItem) : Pt :=
  let allParents := getAllParentNodes d
  let maxBottomY := allParents.foldl
    (fun acc p => max acc (getSubtreeBBox d p.nid).bottom) referenceParent.pos.y
  let newX := referenceParent.pos.x + 200
  let newY := maxBottomY + 60
  let finalB := pushDownBBox d.nodes none 60 ⟨newX, newY, 128, 72, newY + 72⟩
  if g.gridSnapEnabled then snapToGrid g ⟨finalB.x, finalB.y⟩
  else ⟨finalB.x, finalB.y⟩

/-- `MindMapView._calculate_parent_node_position`; `vc` is the scene point of
the viewport centre. -/
def calculateParentNodePosition (d : Doc) (g : GridSettings) (vc : Pt) : Pt :=
  match argminXNode d.nodes with
  | none => vc
  | some center => calculateParentInsertPosition d g center

/-- `MindMapView.add_node`: resolve the missing-position defaults, run the
collision-free search, add the node (fresh identity `d.nextId`, constructor
size 128x72, empty `_edges`), and `relayout`. -/
def addNodeFull (spiral : Pt → List NodeItem → Pt) (g : GridSettings) (vc : Pt)
    (d : Doc) (label : String) (pos? : Option Pt) (isParent : Bool) : Doc :=
  let pos := match pos? with
    | some p => p
    | none => if isParent then calculateParentNodePosition d g vc else vc
  let p1 := findCollisionFreePosition spiral pos d.nodes
  updateAllConns
    { d with nodes := d.nodes ++ [⟨d.nextId, p1, 128, 72, label, []⟩],
             nextId := d.nextId + 1 }

end MindMap

namespace MindMap

/-- Update the connections incident to one node (the
`for connection in self.view.connections: if source == node or target == node`
loops of `MoveNodeCommand`). -/
def updateIncidentConns (d : Doc) (i : Nat) : Doc :=
  { d with conns := d.conns.map (fun c =>
      if decide (c.source = i) || decide (c.target = i) then updateConnGeom d c
      else c) }

/-- Update the connections incident to any of the given nodes
(`MoveMultipleNodesCommand._update_connections`). -/
def updateConnsTouching (d : Doc) (nids : List Nat) : Doc :=
  { d with conns := d.conns.map (fun c =>
      if nids.any (fun i => decide (c.source = i) || decide (c.target = i))
      then updateConnGeom d c else c) }

/-- Python's `list.insert`, which clamps the index. -/
def pyInsertIdx (l : List Nat) (i : Nat) (x : Nat) : List Nat :=
  if l.length ≤ i then l ++ [x] else l.insertIdx i x

def connProj (c : Conn) : Nat × Nat × Nat := (c.cid, c.source, c.target)

end MindMap

namespace MindMap

lemma connProj_updateConnGeom (d : Doc) (c : Conn) :
    connProj (updateConnGeom d c) = connProj c := by
  unfold updateConnGeom
  cases d.find c.source <;> cases d.find c.target <;> rfl

lemma map_connProj_preserve (f : Conn → Conn)
    (h : ∀ c, connProj (f c) = connProj c) (l : List Conn) :
    (l.map f).map connProj = l.map connProj := by
  rw [List.map_map]
  exact List.map_congr_left (fun c _ => h c)

lemma refreshNodeConns_parts (d : Doc) (i : Nat) :
    (refreshNodeConns d i).nodes = d.nodes ∧
    (refreshNodeConns d i).conns.map connProj = d.conns.map connProj ∧
    (refreshNodeConns d i).nextId = d.nextId ∧
    (refreshNodeConns d i).nextCid = d.nextCid := by
  unfold refreshNodeConns
  cases d.find i with
  | none => exact ⟨rfl, rfl, rfl, rfl⟩
  | some n =>
      refine ⟨rfl, ?_, rfl, rfl⟩
      exact map_connProj_preserve _
        (fun c => by
          by_cases h : n.edges.any (fun e => decide (e.1 = c.cid)) = true
          · simp [h, connProj_updateConnGeom]
          · simp [h]) d.conns

lemma updateAllConns_parts (d : Doc) :
    (updateAllConns d).nodes = d.nodes ∧
    (updateAllConns d).conns.map connProj = d.conns.map connProj ∧
    (updateAllConns d).nextId = d.nextId ∧
    (updateAllConns d).nextCid = d.nextCid :=
  ⟨rfl, map_connProj_preserve _ (fun c => connProj_updateConnGeom d c) d.conns,
   rfl, rfl⟩

lemma applyPairs_not_mem (pairs : List (Nat × Pt)) (n : NodeItem)
    (h : n.nid ∉ pairs.map Prod.fst) :
    applyPairs pairs n = n := by
  induction pairs with
  | nil => rfl
  | cons q rest ih =>
      have hq : n.nid ≠ q.1 := by
        intro he; exact h (by simp [he])
      have hr : n.nid ∉ rest.map Prod.fst := by
        intro he; exact h (by simp [he])
      show applyPairs rest (if n.nid = q.1 then { n with pos := q.2 } else n) = n
      rw [if_neg hq]
      exact ih hr

lemma applyPairs_set (pairs : List (Nat × Pt)) (k : Nat) (v : Pt) (n : NodeItem)
    (hnd : (pairs.map Prod.fst).Nodup) (hk : (k, v) ∈ pairs) (hn : n.nid = k) :
    applyPairs pairs n = { n with pos := v } := by
  induction pairs generalizing n with
  | nil => cases hk
  | cons q rest ih =>
      have hnd' : (rest.map Prod.fst).Nodup := (List.nodup_cons.mp hnd).2
      rcases List.mem_cons.mp hk with h1 | h2
      · subst h1
        show applyPairs rest (if n.nid = k then { n with pos := v } else n) = _
        rw [if_pos hn]
        apply applyPairs_not_mem
        have : k ∉ rest.map Prod.fst := by
          have := (List.nodup_cons.mp hnd).1
          simpa using this
        simpa [hn] using this
      · have hq : n.nid ≠ q.1 := by
          intro he
          have h1 : q.1 ∈ rest.map Prod.fst := by
            exact List.mem_map.mpr ⟨(k, v), h2, by rw [← he, hn]⟩
          exact (List.nodup_cons.mp hnd).1 h1
        show applyPairs rest (if n.nid = q.1 then { n with pos := q.2 } else n) = _
        rw [if_neg hq]
        exact ih n hnd' h2 hn

end MindMap

namespace MindMap

end MindMap

namespace MindMap

/-- The `_edges` append performed by `attach_edge` on one node. -/
def attachFun (i cid other : Nat) (n : NodeItem) : NodeItem :=
  if n.nid = i then { n with edges := n.edges ++ [(cid, other)] } else n

/-- The `_edges` filter performed by `detach_edge` on one node. -/
def detachFun (i cid other : Nat) (n : NodeItem) : NodeItem :=
  if n.nid = i then
    { n with edges := n.edges.filter (fun e =>
        !decide (e.1 = cid) || !decide (e.2 = other)) }
  else n

lemma attachEdge_parts (d : Doc) (i cid other : Nat) :
    (attachEdge d i cid other).nodes = d.nodes.map (attachFun i cid other) ∧
    (attachEdge d i cid other).conns.map connProj = d.conns.map connProj ∧
    (attachEdge d i cid other).nextId = d.nextId ∧
    (attachEdge d i cid other).nextCid = d.nextCid := by
  obtain ⟨h1, h2, h3, h4⟩ := refreshNodeConns_parts
    { d with nodes := d.nodes.map (fun n =>
        if n.nid = i then { n with edges := n.edges ++ [(cid, other)] } else n) } i
  exact ⟨h1, h2, h3, h4⟩

lemma detachEdge_parts (d : Doc) (i cid other : Nat) :
    (detachEdge d i cid other).nodes = d.nodes.map (detachFun i cid other) ∧
    (detachEdge d i cid other).conns = d.conns :=
  ⟨rfl, rfl⟩

lemma createEdge_parts (d : Doc) (s t : Nat) :
    (createEdge d s t).nodes
      = (d.nodes.map (attachFun s d.nextCid t)).map (attachFun t d.nextCid s) ∧
    (∃ lines, (createEdge d s t).conns
      = (attachEdge (attachEdge d s d.nextCid t) t d.nextCid s).conns
        ++ [⟨d.nextCid, s, t, lines⟩]) ∧
    (attachEdge (attachEdge d s d.nextCid t) t d.nextCid s).conns.map connProj
      = d.conns.map connProj ∧
    (createEdge d s t).nextId = d.nextId ∧
    (createEdge d s t).nextCid = d.nextCid + 1 := by
  obtain ⟨a1, a2, a3, a4⟩ := attachEdge_parts d s d.nextCid t
  obtain ⟨b1, b2, b3, b4⟩ := attachEdge_parts (attachEdge d s d.nextCid t) t d.nextCid s
  refine ⟨?_, ⟨_, rfl⟩, ?_, ?_, rfl⟩
  · show (attachEdge (attachEdge d s d.nextCid t) t d.nextCid s).nodes = _
    rw [b1, a1]
  · rw [b2, a2]
  · show (attachEdge (attachEdge d s d.nextCid t) t d.nextCid s).nextId = d.nextId
    rw [b3, a3]

end MindMap

namespace MindMap

lemma addNodeFull_parts (spiral : Pt → List NodeItem → Pt) (g : GridSettings)
    (vc : Pt) (d : Doc) (label : String) (pos? : Option Pt) (isParent : Bool) :
    (∃ p : Pt, (addNodeFull spiral g vc d label pos? isParent).nodes
      = d.nodes ++ [⟨d.nextId, p, 128, 72, label, []⟩]) ∧
    (addNodeFull spiral g vc d label pos? isParent).conns.map connProj
      = d.conns.map connProj ∧
    (addNodeFull spiral g vc d label pos? isParent).nextId = d.nextId + 1 ∧
    (addNodeFull spiral g vc d label pos? isParent).nextCid = d.nextCid := by
  refine ⟨⟨_, rfl⟩, ?_, rfl, rfl⟩
  exact (updateAllConns_parts _).2.1

end MindMap

namespace MindMap

end MindMap

namespace MindMap

end MindMap

/-! ### C2: `_export_to_json` / `_import_from_json` -/

namespace MindMap

/-- The id (`node_{i}`, modelled by the index `i`) that `_export_to_json`
assigns to the node with identity `nid` via `node_id_map`. -/
def exportIdOf (d : Doc) (nid : Nat) : Option Nat :=
  (d.nodes.enum.find? (fun q => decide (q.2.nid = nid))).map Prod.fst

/-- `MindMapView._export_to_json`: the node records (id, text, position) in
scene order, and one edge record per entry of every node's `_edges` list
(entries whose partner is not in the scene are skipped).  The JSON
serialisation itself (`json.dumps`/`json.loads`) is an identity on this data
and is not modelled. -/
def exportData (d : Doc) : List (Nat × String × Pt) × List (Nat × Nat) :=
  (d.nodes.enum.map (fun q => (q.1, q.2.text, q.2.pos)),
   d.nodes.flatMap (fun n => n.edges.filterMap (fun e =>
     match exportIdOf d n.nid, exportIdOf d e.2 with
     | some a, some b => some (a, b)
     | _, _ => none)))

/-- One node-creating step of `_import_from_json`: `add_node(text, (x, y))`
plus the `node_map[id] = node` binding. -/
def importStep (spiral : Pt → List NodeItem → Pt) (g : GridSettings) (vc : Pt)
    (acc : Doc × List (Nat × Nat)) (q : Nat × String × Pt) :
    Doc × List (Nat × Nat) :=
  (addNodeFull spiral g vc acc.1 q.2.1 (some q.2.2) false,
   acc.2 ++ [(q.1, acc.1.nextId)])

/-- One edge-creating step of `_import_from_json`. -/
def importEdgeStep (M : List (Nat × Nat)) (acc : Doc) (e : Nat × Nat) : Doc :=
  match M.find? (fun m => decide (m.1 = e.1)),
        M.find? (fun m => decide (m.1 = e.2)) with
  | some ms, some mt => createEdge acc ms.2 mt.2
  | _, _ => acc

/-- `MindMapView._import_from_json` applied to parsed data: clear the scene,
create the nodes, then recreate the edges by id lookup (unresolved ids are
skipped). -/
def importFromData (spiral : Pt → List NodeItem → Pt) (g : GridSettings)
    (vc : Pt) (data : List (Nat × String × Pt) × List (Nat × Nat)) : Doc :=
  let st := data.1.foldl (importStep spiral g vc) (⟨[], [], 0, 0⟩, [])
  data.2.foldl (importEdgeStep st.2) st.1

/-- Endpoint pair of one stored connection. -/
def pairProj (c : Conn) : Nat × Nat := (c.source, c.target)

/-- Index of a node identity in export order (total version of
`exportIdOf`). -/
def ixOf (d : Doc) (nid : Nat) : Nat := (exportIdOf d nid).getD 0

lemma import_nodes_fold (spiral : Pt → List NodeItem → Pt) (g : GridSettings)
    (vc : Pt) :
    ∀ (items : List (Nat × String × Pt)) (acc : Doc) (m : List (Nat × Nat)),
      ((items.foldl (importStep spiral g vc) (acc, m)).1.nodes.map (fun n => n.text)
        = acc.nodes.map (fun n => n.text) ++ items.map (fun q => q.2.1)) ∧
      ((items.foldl (importStep spiral g vc) (acc, m)).2
        = m ++ (List.enumFrom acc.nextId items).map (fun p => (p.2.1, p.1))) ∧
      ((items.foldl (importStep spiral g vc) (acc, m)).1.conns.map connProj
        = acc.conns.map connProj) ∧
      ((items.foldl (importStep spiral g vc) (acc, m)).1.nextId
        = acc.nextId + items.length) := by
  intro items
  induction items with
  | nil =>
      intro acc m
      exact ⟨by simp, by simp, rfl, rfl⟩
  | cons q rest ih =>
      intro acc m
      obtain ⟨⟨p1, hnodes⟩, hproj, hnid, hncid⟩ :=
        addNodeFull_parts spiral g vc acc q.2.1 (some q.2.2) false
      obtain ⟨i1, i2, i3, i4⟩ := ih (addNodeFull spiral g vc acc q.2.1 (some q.2.2) false)
        (m ++ [(q.1, acc.nextId)])
      refine ⟨?_, ?_, ?_, ?_⟩
      · rw [show (q :: rest).foldl (importStep spiral g vc) (acc, m)
            = rest.foldl (importStep spiral g vc)
                (addNodeFull spiral g vc acc q.2.1 (some q.2.2) false,
                 m ++ [(q.1, acc.nextId)]) from rfl, i1, hnodes]
        simp
      · rw [show (q :: rest).foldl (importStep spiral g vc) (acc, m)
            = rest.foldl (importStep spiral g vc)
                (addNodeFull spiral g vc acc q.2.1 (some q.2.2) false,
                 m ++ [(q.1, acc.nextId)]) from rfl, i2]
        rw [show (addNodeFull spiral g vc acc q.2.1 (some q.2.2) false).nextId
            = acc.nextId + 1 from hnid]
        simp [List.enumFrom]
      · rw [show (q :: rest).foldl (importStep spiral g vc) (acc, m)
            = rest.foldl (importStep spiral g vc)
                (addNodeFull spiral g vc acc q.2.1 (some q.2.2) false,
                 m ++ [(q.1, acc.nextId)]) from rfl, i3, hproj]
      · rw [show (q :: rest).foldl (importStep spiral g vc) (acc, m)
            = rest.foldl (importStep spiral g vc)
                (addNodeFull spiral g vc acc q.2.1 (some q.2.2) false,
                 m ++ [(q.1, acc.nextId)]) from rfl, i4]
        rw [show (addNodeFull spiral g vc acc q.2.1 (some q.2.2) false).nextId
            = acc.nextId + 1 from hnid]
        simp [Nat.add_assoc, Nat.add_comm 1 rest.length]

lemma find?_map_diag (l : List Nat) (a : Nat) (h : a ∈ l) :
    (l.map (fun j => (j, j))).find? (fun m => decide (m.1 = a)) = some (a, a) := by
  induction l with
  | nil => cases h
  | cons b rest ih =>
      by_cases hb : b = a
      · subst hb
        simp [List.find?]
      · have h2 : a ∈ rest := by
          rcases List.mem_cons.mp h with h1 | h1
          · exact absurd h1.symm hb
          · exact h1
        simp only [List.map_cons, List.find?]
        have hfalse : decide ((b, b).1 = a) = false := by simp [hb]
        rw [hfalse]
        exact ih h2

lemma mem_enumFrom_bound {α : Type} :
    ∀ (l : List α) (k : Nat) (q : Nat × α),
      q ∈ List.enumFrom k l → k ≤ q.1 ∧ q.1 < k + l.length := by
  intro l
  induction l with
  | nil => intro k q h; cases h
  | cons x xs ih =>
      intro k q h
      rcases List.mem_cons.mp h with h1 | h2
      · subst h1; simp
      · have := ih (k + 1) q h2
        constructor <;> [omega; (simp only [List.length_cons]; omega)]

lemma diag_enum_aux :
    ∀ (l : List NodeItem) (k : Nat),
      (List.enumFrom k ((List.enumFrom k l).map
          (fun q => (q.1, q.2.text, q.2.pos)))).map (fun p => (p.2.1, p.1))
        = ((List.enumFrom k l).map Prod.fst).map (fun j => (j, j)) := by
  intro l
  induction l with
  | nil => intro k; rfl
  | cons x xs ih =>
      intro k
      simp only [List.enumFrom, List.map_cons]
      rw [ih (k + 1)]

end MindMap

namespace MindMap

lemma map_pairProj_of_connProj {l l' : List Conn}
    (h : l'.map connProj = l.map connProj) :
    l'.map pairProj = l.map pairProj := by
  have h2 := congrArg (List.map Prod.snd) h
  rw [List.map_map, List.map_map] at h2
  exact h2

lemma createEdge_pair (acc : Doc) (s t : Nat) :
    (createEdge acc s t).conns.map pairProj
      = acc.conns.map pairProj ++ [(s, t)] := by
  obtain ⟨_, ⟨lines, hcc⟩, hproj, _, _⟩ := createEdge_parts acc s t
  rw [hcc, List.map_append]
  rw [map_pairProj_of_connProj hproj]
  rfl

lemma import_edges_fold (M : List (Nat × Nat)) :
    ∀ (E : List (Nat × Nat)) (acc : Doc),
      (∀ e ∈ E, M.find? (fun m => decide (m.1 = e.1)) = some (e.1, e.1) ∧
                M.find? (fun m => decide (m.1 = e.2)) = some (e.2, e.2)) →
      (E.foldl (importEdgeStep M) acc).conns.map pairProj
        = acc.conns.map pairProj ++ E := by
  intro E
  induction E with
  | nil => intro acc _; simp
  | cons e rest ih =>
      intro acc hd
      obtain ⟨h1, h2⟩ := hd e (List.mem_cons_self e rest)
      have hstep : importEdgeStep M acc e = createEdge acc e.1 e.2 := by
        unfold importEdgeStep
        rw [h1, h2]
      rw [show (e :: rest).foldl (importEdgeStep M) acc
          = rest.foldl (importEdgeStep M) (importEdgeStep M acc e) from rfl,
        hstep, ih (createEdge acc e.1 e.2)
          (fun e' he' => hd e' (List.mem_cons_of_mem e he')),
        createEdge_pair]
      simp

lemma createEdge_texts (acc : Doc) (s t : Nat) :
    (createEdge acc s t).nodes.map (fun n => n.text)
      = acc.nodes.map (fun n => n.text) := by
  obtain ⟨hn, _, _, _, _⟩ := createEdge_parts acc s t
  rw [hn, List.map_map, List.map_map]
  apply List.map_congr_left
  intro n _
  show ((fun n : NodeItem => n.text) ∘ attachFun t acc.nextCid s)
      (attachFun s acc.nextCid t n) = n.text
  obtain ⟨nid, pos, w, hh, text, edges⟩ := n
  unfold attachFun
  by_cases hs : nid = s
  · subst hs
    by_cases ht : nid = t
    · subst ht; simp
    · simp [ht]
  · by_cases ht : nid = t
    · subst ht; simp [hs]
    · simp [hs, ht]

lemma import_edges_fold_texts (M : List (Nat × Nat)) :
    ∀ (E : List (Nat × Nat)) (acc : Doc),
      (E.foldl (importEdgeStep M) acc).nodes.map (fun n => n.text)
        = acc.nodes.map (fun n => n.text) := by
  intro E
  induction E with
  | nil => intro acc; rfl
  | cons e rest ih =>
      intro acc
      rw [show (e :: rest).foldl (importEdgeStep M) acc
          = rest.foldl (importEdgeStep M) (importEdgeStep M acc e) from rfl,
        ih (importEdgeStep M acc e)]
      unfold importEdgeStep
      cases M.find? (fun m => decide (m.1 = e.1)) with
      | none => rfl
      | some ms =>
          cases M.find? (fun m => decide (m.1 = e.2)) with
          | none => rfl
          | some mt => exact createEdge_texts acc ms.2 mt.2

lemma mem_enumFrom_self {α : Type} :
    ∀ (l : List α) (k : Nat) (x : α), x ∈ l →
      ∃ i, (i, x) ∈ List.enumFrom k l := by
  intro l
  induction l with
  | nil => intro k x h; cases h
  | cons y ys ih =>
      intro k x h
      rcases List.mem_cons.mp h with h1 | h2
      · exact ⟨k, by rw [h1]; exact List.mem_cons_self _ _⟩
      · obtain ⟨i, hi⟩ := ih (k + 1) x h2
        exact ⟨i, List.mem_cons_of_mem _ hi⟩

lemma exportIdOf_isSome_of_mem (d : Doc) (n : NodeItem) (hn : n ∈ d.nodes) :
    ∃ a, exportIdOf d n.nid = some a ∧ a < d.nodes.length := by
  have hmem : ∃ i, (i, n) ∈ d.nodes.enum := mem_enumFrom_self d.nodes 0 n hn
  obtain ⟨i, hi⟩ := hmem
  have hsome : (d.nodes.enum.find? (fun q => decide (q.2.nid = n.nid))).isSome := by
    rw [List.find?_isSome]
    exact ⟨(i, n), hi, by simp⟩
  obtain ⟨q, hq⟩ := Option.isSome_iff_exists.mp hsome
  refine ⟨q.1, by unfold exportIdOf; rw [hq]; rfl, ?_⟩
  have hqmem := List.mem_of_find?_eq_some hq
  have := mem_enumFrom_bound d.nodes 0 q hqmem
  simpa using this.2

lemma exportIdOf_lt (d : Doc) (nid a : Nat) (h : exportIdOf d nid = some a) :
    a < d.nodes.length := by
  unfold exportIdOf at h
  cases hf : d.nodes.enum.find? (fun q => decide (q.2.nid = nid)) with
  | none => rw [hf] at h; cases h
  | some q =>
      rw [hf] at h
      have hqmem := List.mem_of_find?_eq_some hf
      have hb := mem_enumFrom_bound d.nodes 0 q hqmem
      have : q.1 = a := by simpa using h
      rw [← this]
      simpa using hb.2

lemma export_edges_bounded (d : Doc) (e : Nat × Nat) (he : e ∈ (exportData d).2) :
    e.1 < d.nodes.length ∧ e.2 < d.nodes.length := by
  unfold exportData at he
  simp only [List.mem_flatMap] at he
  obtain ⟨n, _, he2⟩ := he
  rw [List.mem_filterMap] at he2
  obtain ⟨ed, _, hmatch⟩ := he2
  cases h1 : exportIdOf d n.nid with
  | none => rw [h1] at hmatch; cases hmatch
  | some a =>
      cases h2 : exportIdOf d ed.2 with
      | none => rw [h1, h2] at hmatch; cases hmatch
      | some b =>
          rw [h1, h2] at hmatch
          have : (a, b) = e := by simpa using hmatch
          rw [← this]
          exact ⟨exportIdOf_lt d n.nid a h1, exportIdOf_lt d ed.2 b h2⟩

end MindMap

namespace MindMap

lemma filterMap_eq_map_of_some {α β : Type} (f : α → Option β) (g : α → β)
    (l : List α) (h : ∀ a ∈ l, f a = some (g a)) : l.filterMap f = l.map g := by
  induction l with
  | nil => rfl
  | cons x xs ih =>
      rw [List.filterMap_cons, h x (List.mem_cons_self x xs), List.map_cons,
        ih (fun a ha => h a (List.mem_cons_of_mem x ha))]

lemma flatMap_congr_mem {α β : Type} (l : List α) (f g : α → List β)
    (h : ∀ a ∈ l, f a = g a) : l.flatMap f = l.flatMap g := by
  induction l with
  | nil => rfl
  | cons x xs ih =>
      rw [List.flatMap_cons, List.flatMap_cons, h x (List.mem_cons_self x xs),
        ih (fun a ha => h a (List.mem_cons_of_mem x ha))]

lemma map_flatMap_swap {α β γ : Type} (l : List α) (f : α → List β) (g : β → γ) :
    (l.flatMap f).map g = l.flatMap (fun a => (f a).map g) := by
  induction l with
  | nil => rfl
  | cons x xs ih =>
      rw [List.flatMap_cons, List.flatMap_cons, List.map_append, ih]

lemma flatMap_pair_length {α β : Type} (l : List α) (f g : α → β) :
    (l.flatMap (fun c => [f c, g c])).length = 2 * l.length := by
  induction l with
  | nil => rfl
  | cons x xs ih =>
      rw [List.flatMap_cons]
      simp only [List.length_append, List.length_cons, ih, List.length_nil]
      omega

lemma mem_enumFrom_map_fst {α : Type} :
    ∀ (l : List α) (k a : Nat), k ≤ a → a < k + l.length →
      a ∈ (List.enumFrom k l).map Prod.fst := by
  intro l
  induction l with
  | nil => intro k a h1 h2; simp at h2; omega
  | cons x xs ih =>
      intro k a h1 h2
      by_cases hk : a = k
      · simp [List.enumFrom, hk]
      · have h3 : k + 1 ≤ a := by omega
        have h4 : a < (k + 1) + xs.length := by
          simp only [List.length_cons] at h2; omega
        simp only [List.enumFrom, List.map_cons]
        exact List.mem_cons_of_mem _ (ih (k + 1) a h3 h4)

lemma export_edges_translated (d : Doc)
    (hclosed : ∀ n ∈ d.nodes, ∀ e ∈ n.edges, ∃ m ∈ d.nodes, m.nid = e.2) :
    (exportData d).2
      = (d.nodes.flatMap (fun n => n.edges.map (fun e => (n.nid, e.2)))).map
          (fun p => (ixOf d p.1, ixOf d p.2)) := by
  show (d.nodes.flatMap fun n => n.edges.filterMap fun e =>
      match exportIdOf d n.nid, exportIdOf d e.2 with
      | some a, some b => some (a, b)
      | _, _ => none) = _
  rw [map_flatMap_swap]
  apply flatMap_congr_mem
  intro n hn
  rw [List.map_map]
  apply filterMap_eq_map_of_some
  intro e he
  obtain ⟨a, ha, _⟩ := exportIdOf_isSome_of_mem d n hn
  obtain ⟨m, hm, hme⟩ := hclosed n hn e he
  obtain ⟨b, hb, _⟩ := exportIdOf_isSome_of_mem d m hm
  rw [hme] at hb
  rw [ha, hb]
  show some (a, b) = some (ixOf d n.nid, ixOf d e.2)
  unfold ixOf
  rw [ha, hb]
  rfl

/-- Claim C2 (amended): importing the export of a document reproduces the node
text labels in order (under the index bijection `i ↦ i`), and reproduces the
connectivity — but each stored connection is exported twice (once from each
endpoint's `_edges` list, in both directions), so a document with M
connections imports with 2M connections joining the same node pairs. -/
theorem export_import_round_trip (spiral : Pt → List NodeItem → Pt)
    (g : GridSettings) (vc : Pt) (d : Doc) :
    ((importFromData spiral g vc (exportData d)).nodes.map (fun n => n.text)
      = d.nodes.map (fun n => n.text)) ∧
    ((importFromData spiral g vc (exportData d)).conns.map pairProj
      = (exportData d).2) ∧
    ((∀ n ∈ d.nodes, ∀ e ∈ n.edges, ∃ m ∈ d.nodes, m.nid = e.2) →
      (exportData d).2
        = (d.nodes.flatMap (fun n => n.edges.map (fun e => (n.nid, e.2)))).map
            (fun p => (ixOf d p.1, ixOf d p.2))) ∧
    ((∀ n ∈ d.nodes, ∀ e ∈ n.edges, ∃ m ∈ d.nodes, m.nid = e.2) →
      (d.nodes.flatMap (fun n => n.edges.map (fun e => (n.nid, e.2)))).Perm
        (d.conns.flatMap (fun c => [(c.source, c.target), (c.target, c.source)])) →
      ((importFromData spiral g vc (exportData d)).conns.map pairProj).Perm
        ((d.conns.flatMap (fun c => [(c.source, c.target), (c.target, c.source)])).map
          (fun p => (ixOf d p.1, ixOf d p.2))) ∧
      (importFromData spiral g vc (exportData d)).conns.length
        = 2 * d.conns.length) := by
  obtain ⟨hTexts, hMap, hConns, _⟩ := import_nodes_fold spiral g vc
    (exportData d).1 ⟨[], [], 0, 0⟩ []
  have hM : ((exportData d).1.foldl (importStep spiral g vc)
      (⟨[], [], 0, 0⟩, [])).2
      = ((List.enumFrom 0 d.nodes).map Prod.fst).map (fun j => (j, j)) := by
    rw [hMap]
    show (List.enumFrom 0 ((List.enumFrom 0 d.nodes).map
        (fun q => (q.1, q.2.text, q.2.pos)))).map (fun p => (p.2.1, p.1)) = _
    exact diag_enum_aux d.nodes 0
  have hdiag : ∀ e ∈ (exportData d).2,
      (((exportData d).1.foldl (importStep spiral g vc)
        (⟨[], [], 0, 0⟩, [])).2.find? (fun m => decide (m.1 = e.1))
          = some (e.1, e.1)) ∧
      (((exportData d).1.foldl (importStep spiral g vc)
        (⟨[], [], 0, 0⟩, [])).2.find? (fun m => decide (m.1 = e.2))
          = some (e.2, e.2)) := by
    intro e he
    obtain ⟨hb1, hb2⟩ := export_edges_bounded d e he
    rw [hM]
    constructor
    · exact find?_map_diag _ e.1
        (mem_enumFrom_map_fst d.nodes 0 e.1 (Nat.zero_le _) (by simpa using hb1))
    · exact find?_map_diag _ e.2
        (mem_enumFrom_map_fst d.nodes 0 e.2 (Nat.zero_le _) (by simpa using hb2))
  have hstconns : ((exportData d).1.foldl (importStep spiral g vc)
      (⟨[], [], 0, 0⟩, [])).1.conns = [] := by
    have h0 : (((exportData d).1.foldl (importStep spiral g vc)
        (⟨[], [], 0, 0⟩, [])).1.conns).map connProj = [] := by
      rw [hConns]
      rfl
    exact List.map_eq_nil_iff.mp h0
  have hImp : importFromData spiral g vc (exportData d)
      = (exportData d).2.foldl
          (importEdgeStep ((exportData d).1.foldl (importStep spiral g vc)
            (⟨[], [], 0, 0⟩, [])).2)
          ((exportData d).1.foldl (importStep spiral g vc)
            (⟨[], [], 0, 0⟩, [])).1 := rfl
  refine ⟨?_, ?_, ?_, ?_⟩
  · rw [hImp, import_edges_fold_texts, hTexts]
    show (exportData d).1.map (fun q => q.2.1) = _
    unfold exportData
    rw [List.map_map]
    have : ((fun q : Nat × String × Pt => q.2.1) ∘
        (fun q : Nat × NodeItem => (q.1, q.2.text, q.2.pos)))
        = (fun q : Nat × NodeItem => q.2.text) := rfl
    rw [this]
    have h2 : (d.nodes.enum.map Prod.snd).map (fun n : NodeItem => n.text)
        = d.nodes.map (fun n => n.text) := by rw [List.enum_map_snd]
    rw [← h2, List.map_map]
    rfl
  · rw [hImp, import_edges_fold _ _ _ hdiag, hstconns]
    rfl
  · intro hclosed
    exact export_edges_translated d hclosed
  · intro hclosed hperm
    have hE : (importFromData spiral g vc (exportData d)).conns.map pairProj
        = (exportData d).2 := by
      rw [hImp, import_edges_fold _ _ _ hdiag, hstconns]
      rfl
    have hexp : (exportData d).2
        = (d.nodes.flatMap (fun n => n.edges.map (fun e => (n.nid, e.2)))).map
            (fun p => (ixOf d p.1, ixOf d p.2)) := export_edges_translated d hclosed
    constructor
    · rw [hE, hexp]
      exact hperm.map _
    · have hlen1 : ((importFromData spiral g vc (exportData d)).conns.map pairProj).length
          = (exportData d).2.length := by rw [hE]
      rw [List.length_map] at hlen1
      rw [hlen1, hexp, List.length_map, hperm.length_eq, flatMap_pair_length]


/-- First node of the C2 counterexample document. -/
def c2NodeA : NodeItem := ⟨0, ⟨0, 0⟩, 128, 72, "a", [(0, 1)]⟩

/-- Second node of the C2 counterexample document. -/
def c2NodeB : NodeItem := ⟨1, ⟨300, 0⟩, 128, 72, "b", [(0, 0)]⟩

/-- The C2 counterexample document: two nodes joined by one connection
(M = 1), the connection recorded in both endpoints' `_edges` lists as the
code maintains them. -/
def c2Doc : Doc :=
  ⟨[c2NodeA, c2NodeB],
   [⟨0, 0, 1, ⟨⟨0, 0, 0, 0⟩, ⟨0, 0, 0, 0⟩, ⟨0, 0, 0, 0⟩⟩⟩], 2, 1⟩

/-- Counterexample to claim C2: `c2Doc` has one connection, but exporting it
and importing the result yields two connections (the pair is connected by
edge records `(0, 1)` and `(1, 0)`, one from each endpoint's `_edges` list),
so the round trip does not preserve the edge count M. -/
theorem import_duplicates_edges_cex :
    c2Doc.conns.length = 1 ∧
    (importFromData (fun p _ => p) ⟨false, 20, 10⟩ ⟨0, 0⟩
        (exportData c2Doc)).conns.length = 2 ∧
    ((importFromData (fun p _ => p) ⟨false, 20, 10⟩ ⟨0, 0⟩
        (exportData c2Doc)).nodes.map (fun n => n.text)
      = c2Doc.nodes.map (fun n => n.text)) ∧
    ((importFromData (fun p _ => p) ⟨false, 20, 10⟩ ⟨0, 0⟩
        (exportData c2Doc)).conns.map pairProj = [(0, 1), (1, 0)]) :=
  ⟨rfl, rfl, rfl, rfl⟩

/-- Witness for the amended C2 theorem at the concrete document `c2Doc`:
its adjacency hypotheses hold and the import of its export carries
`2 * 1` connections. -/
theorem export_import_round_trip_witness :
    (importFromData (fun p _ => p) ⟨false, 20, 10⟩ ⟨0, 0⟩
        (exportData c2Doc)).conns.length = 2 * c2Doc.conns.length :=
  ((export_import_round_trip (fun p _ => p) ⟨false, 20, 10⟩ ⟨0, 0⟩ c2Doc).2.2.2
    (by decide) (by decide)).2

end MindMap

/-! ### C3: subtree drag release (`NodeItem.mouseReleaseEvent` /
`MindMapView.end_subtree_drag`) -/

namespace MindMap

/-- A command pushed onto the view's `QUndoStack` during mouse release.
`QUndoStack.push` runs the command's `redo()`, which re-applies the positions
the command was built from; those equal the scene positions at push time, so
the push itself leaves every node where it is and only the recorded data is
modelled. -/
inductive Pushed where
  | subtreeMove (rootId : Nat) (olds news : List (Nat × Pt)) : Pushed
  | moveNode (nid : Nat) (oldPos newPos : Pt) : Pushed
  deriving DecidableEq, Repr

/-- The view's subtree-drag state as set up by `begin_subtree_drag`:
`_subtree_drag_root`, `_subtree_drag_start_pos`, `_subtree_drag_snapshot` and
`_subtree_drag_original_positions`, the dicts iterated in insertion order
(root first, then the descendants) as Python dicts are. -/
structure DragState where
  root : Nat
  startPos : Pt
  snapshot : List (Nat × Pt)
  originals : List (Nat × Pt)
  deriving DecidableEq, Repr

/-- `MindMapView.begin_subtree_drag`.  The connector-geometry snapshot
`_subtree_drag_edges_snapshot` is not modelled: the claim tracks node
coordinates and command pushes, not connector pixels. -/
def beginSubtreeDrag (d : Doc) (rootId : Nat) : DragState :=
  ⟨rootId, posOf d rootId,
   (rootId :: getDescendants d rootId).map (fun i => (i, posOf d i)),
   (rootId :: getDescendants d rootId).map (fun i => (i, posOf d i))⟩

/-- `dict[key]` on a `(key, value)` association list. -/
def lookupPos (l : List (Nat × Pt)) (k : Nat) : Pt :=
  ((l.find? (fun q => decide (q.1 = k))).map Prod.snd).getD ⟨0, 0⟩

/-- `MindMapView.update_subtree_drag`: every snapshotted node is `setPos`-ed
to its snapshot position shifted by `(dx, dy)`.  While a subtree drag is
active, `NodeItem.itemChange` snaps each proposed position to the grid when
grid snapping is enabled (for the root the position change re-enters
`update_subtree_drag`, which stabilises at these same snapped positions
because `snap_to_grid` is idempotent), and the connections touching the
snapshotted nodes are then recomputed. -/
def updateSubtreeDrag (g : GridSettings) (d : Doc) (st : DragState)
    (dx dy : ℚ) : Doc :=
  updateConnsTouching
    (st.snapshot.foldl (fun acc q =>
      acc.setPos q.1
        (if g.gridSnapEnabled then snapToGrid g ⟨q.2.x + dx, q.2.y + dy⟩
         else ⟨q.2.x + dx, q.2.y + dy⟩)) d)
    (st.snapshot.map Prod.fst)

/-- `setPos` on the drag root while the drag is active: `itemChange` snaps the
proposed value when grid snapping is enabled, and `ItemPositionHasChanged`
then re-bases the whole snapshot through
`update_subtree_drag(current - _subtree_drag_start_pos)`; no event fires when
the adjusted value equals the current position. -/
def setPosDragRoot (g : GridSettings) (d : Doc) (st : DragState)
    (value : Pt) : Doc :=
  let v := if g.gridSnapEnabled then snapToGrid g value else value
  if v = posOf d st.root then d
  else updateSubtreeDrag g d st (v.x - st.startPos.x) (v.y - st.startPos.y)

/-- The descendant-restoring loop of the collision branch of
`NodeItem.mouseReleaseEvent`: every node of
`_subtree_drag_original_positions` other than the root is `setPos`-ed to its
original position (snapped by `itemChange` while the drag is active). -/
def rollbackDescendants (g : GridSettings) (d : Doc) (st : DragState) : Doc :=
  st.originals.foldl (fun acc q =>
    if q.1 = st.root then acc
    else acc.setPos q.1 (if g.gridSnapEnabled then snapToGrid g q.2 else q.2)) d

/-- A rectangle expanded by margin `m` on every side (the
`expanded_rect` of the collision checks). -/
def expandRect (r : Rect) (m : ℚ) : Rect :=
  ⟨r.x - m, r.y - m, r.w + 2 * m, r.h + 2 * m⟩

/-- `MindMapView._check_own_vertical_line_overlap`: some connection incident
to the node has its stored `vertical_line` X within 3 of the target
rectangle's horizontal span. -/
def checkOwnVerticalLineOverlap (d : Doc) (i : Nat) (targetRect : Rect) : Bool :=
  d.conns.any (fun c =>
    (decide (c.source = i) || decide (c.target = i)) &&
    (decide (targetRect.x ≤ c.lines.v.x1 + 3) &&
     decide (c.lines.v.x1 - 3 ≤ targetRect.right)))

/-- `MindMapView._check_node_collision`: the node's rectangle centred at the
target position intersects some other node's rectangle expanded by the
5-pixel margin, or lies over one of its own connections' vertical lines. -/
def checkNodeCollision (d : Doc) (i : Nat) (targetPos : Pt) : Bool :=
  match d.find i with
  | none => false
  | some node =>
      let targetRect : Rect :=
        ⟨targetPos.x - node.w / 2, targetPos.y - node.h / 2, node.w, node.h⟩
      (d.nodes.any (fun it => decide (it.nid ≠ i) &&
         targetRect.intersects (expandRect it.sceneRect 5)))
      || checkOwnVerticalLineOverlap d i targetRect

/-- `MindMapView._check_subtree_collision`: some node of the dragged subtree
(root plus descendants) overlaps some node outside it, expanded by the
5-pixel margin. -/
def checkSubtreeCollision (d : Doc) (rootId : Nat) : Bool :=
  let subtree := rootId :: getDescendants d rootId
  d.nodes.any (fun it =>
    !decide (it.nid ∈ subtree) &&
    subtree.any (fun i =>
      match d.find i with
      | none => false
      | some n => n.sceneRect.intersects (expandRect it.sceneRect 5)))

/-- One insertion step of a stable insertion sort. -/
def pyInsertSorted {α : Type} (le : α → α → Bool) (x : α) : List α → List α
  | [] => [x]
  | y :: ys => if le x y then x :: y :: ys else y :: pyInsertSorted le x ys

/-- Python's stable `list.sort(key=...)`, modelled as a stable insertion sort
(a stable sort's output is determined by the key order and the input order,
so this agrees with CPython's timsort on every input). -/
def pySortBy {α : Type} (le : α → α → Bool) : List α → List α
  | [] => []
  | x :: xs => pyInsertSorted le x (pySortBy le xs)

/-- The midpoint scan of `_check_lane_insertion`: index 0 when the drop Y is
above the first midpoint, `i + 1` for the first `i` with
`midpoints[i] <= y < midpoints[i+1]`, and `L` (the lane length) otherwise. -/
def laneInsertIndex (y : ℚ) (mids : List ℚ) (L : Nat) : Nat :=
  match mids with
  | [] => L
  | m0 :: _ =>
      if y < m0 then 0
      else
        match (List.range (mids.length - 1)).find? (fun i =>
            decide (mids.getD i 0 ≤ y) && decide (y < mids.getD (i + 1) 0)) with
        | some i => i + 1
        | none => L

/-- `MindMapView._check_lane_insertion`: nodes within 60 of the drop X form a
lane, sorted by Y; the result is whether to insert, the lane (as node ids in
sorted order) and the insertion index. -/
def checkLaneInsertion (d : Doc) (draggedId : Nat) (targetPos : Pt) :
    Bool × List Nat × Nat :=
  let candidates := d.nodes.filter (fun n => decide (n.nid ≠ draggedId))
  if candidates.isEmpty then (false, [], 0)
  else
    let lane := candidates.filter (fun n => decide (|n.pos.x - targetPos.x| ≤ 60))
    if lane.isEmpty then (false, [], 0)
    else
      match pySortBy (fun a b => decide (a.pos.y ≤ b.pos.y)) lane with
      | [] => (false, [], 0)
      | [n0] => (true, [n0.nid], if targetPos.y ≤ n0.pos.y then 0 else 1)
      | n0 :: n1 :: rest =>
          let mids := ((n0 :: n1 :: rest).zip (n1 :: rest)).map
            (fun q => (q.1.pos.y + q.2.pos.y) / 2)
          (true, (n0 :: n1 :: rest).map (·.nid),
           laneInsertIndex targetPos.y mids (n0 :: n1 :: rest).length)

/-- The push-down walk of `_reposition_lane_nodes` over the tail of the
sorted lane, carrying the previous node's bottom edge. -/
def laneWalk : ℚ → List Nat → Doc → Doc
  | _, [], d => d
  | prevBottom, i :: rest, d =>
      let h := heightOf d i
      let curTop := (posOf d i).y - h / 2
      if curTop < prevBottom + 5 then
        let d2 := translateSubtreeVertical d i (prevBottom + 5 - curTop)
        laneWalk ((posOf d2 i).y - h / 2 + h) rest d2
      else
        laneWalk (curTop + h) rest d

/-- `MindMapView._reposition_lane_nodes`: sort the lane (with the dragged
node inserted) by current Y, anchor the first node, push every later one
down to at least the previous bottom plus the 5-pixel gap, then update the
connections. -/
def repositionLaneNodes (d : Doc) (ids : List Nat) : Doc :=
  match pySortBy (fun a b => decide ((posOf d a).y ≤ (posOf d b).y)) ids with
  | [] => d
  | i :: rest =>
      updateAllConns (laneWalk ((posOf d i).y + heightOf d i / 2) rest d)

/-- `MindMapView.end_subtree_drag` (called with `apply_snap = True` on every
release path): when grid snapping is on, re-snap the root and re-base the
whole snapshot by the snapped delta from the snapshot root position; then
always push a `SubtreeMoveCommand` (old = the snapshot, new = the current
positions) when an undo stack is installed, update the touched connections
and `relayout`. -/
def endSubtreeDrag (g : GridSettings) (hasUndo : Bool) (d : Doc)
    (st : DragState) : Doc × List Pushed :=
  let d1 := if g.gridSnapEnabled then
      let originalRootPos := lookupPos st.snapshot st.root
      let snapped := snapToGrid g (posOf d st.root)
      updateSubtreeDrag g d st (snapped.x - originalRootPos.x)
        (snapped.y - originalRootPos.y)
    else d
  let pushes := if hasUndo then
      [Pushed.subtreeMove st.root st.snapshot
        (st.snapshot.map (fun q => (q.1, posOf d1 q.1)))]
    else []
  (updateAllConns (updateConnsTouching d1 (st.snapshot.map Prod.fst)), pushes)

/-- `NodeItem.mouseReleaseEvent` for a left-button release of the drag root
while a subtree drag is active, the press position differs from the current
position, no multi-node move is in progress and text editing is off: manual
snap when grid snapping is disabled, then the lane-insertion branch, then the
collision branch (roll back descendants, roll back the root, update incident
connections, end the drag), and otherwise the move-command push followed by
ending the drag (`_should_move_related_nodes` always returns `False`, so the
non-collision push is always a plain `MoveNodeCommand`). -/
def mouseReleaseSubtreeRoot (g : GridSettings) (hasUndo : Bool) (d : Doc)
    (st : DragState) (pressPos : Pt) : Doc × List Pushed :=
  let d0 := if !g.gridSnapEnabled then
      let snapped := snapToGrid g (posOf d st.root)
      if snapped ≠ posOf d st.root then setPosDragRoot g d st snapped else d
    else d
  let pos := posOf d0 st.root
  let lane := checkLaneInsertion d0 st.root pos
  if lane.1 then
    endSubtreeDrag g hasUndo
      (repositionLaneNodes d0 (pyInsertIdx lane.2.1 lane.2.2 st.root)) st
  else if checkNodeCollision d0 st.root pos || checkSubtreeCollision d0 st.root then
    let d1 := rollbackDescendants g d0 st
    let d2 := setPosDragRoot g d1 st pressPos
    endSubtreeDrag g hasUndo (updateIncidentConns d2 st.root) st
  else
    let r := endSubtreeDrag g hasUndo d0 st
    (r.1,
     (if decide ((pos.x - pressPos.x) ^ 2 + (pos.y - pressPos.y) ^ 2 > 25) && hasUndo
      then [Pushed.moveNode st.root pressPos pos] else []) ++ r.2)

end MindMap

namespace MindMap

lemma find_nid (d : Doc) (i : Nat) (n : NodeItem) (h : d.find i = some n) :
    n.nid = i := by
  unfold Doc.find at h
  have := List.find?_some h
  simpa using this

lemma find_setPos (d : Doc) (j : Nat) (v : Pt) (i : Nat) :
    (d.setPos j v).find i
      = (d.find i).map (fun n => if n.nid = j then { n with pos := v } else n) := by
  show (d.nodes.map fun n => if n.nid = j then { n with pos := v } else n).find?
      (fun n => decide (n.nid = i))
    = (d.nodes.find? (fun n => decide (n.nid = i))).map
        (fun n => if n.nid = j then { n with pos := v } else n)
  rw [List.find?_map]
  have hp : ((fun n : NodeItem => decide (n.nid = i))
      ∘ (fun n => if n.nid = j then { n with pos := v } else n))
      = (fun n : NodeItem => decide (n.nid = i)) := by
    funext n
    by_cases h : n.nid = j <;> simp [h]
  rw [hp]

lemma find_setPos_ne (d : Doc) (j : Nat) (v : Pt) (i : Nat) (hij : i ≠ j) :
    (d.setPos j v).find i = d.find i := by
  rw [find_setPos]
  cases hfind : d.find i with
  | none => rfl
  | some n =>
      have hn := find_nid d i n hfind
      simp [hn, hij]

lemma isSome_find_setPos (d : Doc) (j : Nat) (v : Pt) (i : Nat) :
    ((d.setPos j v).find i).isSome = (d.find i).isSome := by
  rw [find_setPos]
  cases d.find i <;> rfl

lemma find_setPosList (d : Doc) (P : List (Nat × Pt)) (i : Nat) :
    (setPosList d P).find i = (d.find i).map (applyPairs P) := by
  induction P generalizing d with
  | nil =>
      show d.find i = (d.find i).map (applyPairs [])
      cases d.find i <;> rfl
  | cons q rest ih =>
      have h1 : setPosList d (q :: rest) = setPosList (d.setPos q.1 q.2) rest := rfl
      rw [h1, ih, find_setPos, Option.map_map]
      rfl

end MindMap

namespace MindMap

lemma updateSubtreeDrag_eq_setPosList (g : GridSettings) (d : Doc)
    (st : DragState) (dx dy : ℚ) :
    updateSubtreeDrag g d st dx dy
      = updateConnsTouching
          (setPosList d (st.snapshot.map (fun q => (q.1,
            if g.gridSnapEnabled then snapToGrid g ⟨q.2.x + dx, q.2.y + dy⟩
            else ⟨q.2.x + dx, q.2.y + dy⟩))))
          (st.snapshot.map Prod.fst) := by
  unfold updateSubtreeDrag setPosList
  rw [List.foldl_map]

lemma find_updateConnsTouching (d : Doc) (ks : List Nat) (i : Nat) :
    (updateConnsTouching d ks).find i = d.find i := rfl

lemma find_updateIncidentConns (d : Doc) (j i : Nat) :
    (updateIncidentConns d j).find i = d.find i := rfl

lemma snapshot_keys_map (st : DragState) (f : Nat × Pt → Pt) :
    (st.snapshot.map (fun q => (q.1, f q))).map Prod.fst
      = st.snapshot.map Prod.fst := by
  rw [List.map_map]
  rfl

lemma updateSubtreeDrag_find_mem (g : GridSettings) (d : Doc) (st : DragState)
    (dx dy : ℚ) (i : Nat) (p : Pt)
    (hnd : (st.snapshot.map Prod.fst).Nodup) (hm : (i, p) ∈ st.snapshot) :
    (updateSubtreeDrag g d st dx dy).find i
      = (d.find i).map (fun n => { n with pos :=
          if g.gridSnapEnabled then snapToGrid g ⟨p.x + dx, p.y + dy⟩
          else ⟨p.x + dx, p.y + dy⟩ }) := by
  rw [updateSubtreeDrag_eq_setPosList, find_updateConnsTouching, find_setPosList]
  cases hfind : d.find i with
  | none => rfl
  | some n =>
      have hnid : n.nid = i := find_nid d i n hfind
      have hndP : ((st.snapshot.map (fun q => (q.1,
          if g.gridSnapEnabled then snapToGrid g ⟨q.2.x + dx, q.2.y + dy⟩
          else ⟨q.2.x + dx, q.2.y + dy⟩))).map Prod.fst).Nodup := by
        rw [snapshot_keys_map]
        exact hnd
      have hmem : (i, if g.gridSnapEnabled then snapToGrid g ⟨p.x + dx, p.y + dy⟩
          else ⟨p.x + dx, p.y + dy⟩)
          ∈ st.snapshot.map (fun q => (q.1,
            if g.gridSnapEnabled then snapToGrid g ⟨q.2.x + dx, q.2.y + dy⟩
            else ⟨q.2.x + dx, q.2.y + dy⟩)) :=
        List.mem_map.mpr ⟨(i, p), hm, rfl⟩
      simp only [Option.map_some']
      rw [applyPairs_set _ i _ n hndP hmem hnid]

lemma updateSubtreeDrag_find_not_mem (g : GridSettings) (d : Doc)
    (st : DragState) (dx dy : ℚ) (i : Nat)
    (hm : i ∉ st.snapshot.map Prod.fst) :
    (updateSubtreeDrag g d st dx dy).find i = d.find i := by
  rw [updateSubtreeDrag_eq_setPosList, find_updateConnsTouching, find_setPosList]
  cases hfind : d.find i with
  | none => rfl
  | some n =>
      have hnid : n.nid = i := find_nid d i n hfind
      simp only [Option.map_some']
      rw [applyPairs_not_mem]
      rw [snapshot_keys_map, hnid]
      exact hm

lemma updateSubtreeDrag_posOf_mem (g : GridSettings) (d : Doc) (st : DragState)
    (dx dy : ℚ) (i : Nat) (p : Pt)
    (hnd : (st.snapshot.map Prod.fst).Nodup) (hm : (i, p) ∈ st.snapshot)
    (hsome : (d.find i).isSome = true) :
    posOf (updateSubtreeDrag g d st dx dy) i
      = (if g.gridSnapEnabled then snapToGrid g ⟨p.x + dx, p.y + dy⟩
         else ⟨p.x + dx, p.y + dy⟩) := by
  obtain ⟨n, hn⟩ := Option.isSome_iff_exists.mp hsome
  unfold posOf
  rw [updateSubtreeDrag_find_mem g d st dx dy i p hnd hm, hn]
  rfl

lemma rollbackDescendants_find (g : GridSettings) (st : DragState) :
    ∀ (l : List (Nat × Pt)) (d : Doc) (i : Nat),
      (i = st.root ∨ i ∉ l.map Prod.fst) →
      (l.foldl (fun acc q => if q.1 = st.root then acc
        else acc.setPos q.1
          (if g.gridSnapEnabled then snapToGrid g q.2 else q.2)) d).find i
        = d.find i := by
  intro l
  induction l with
  | nil => intro d i _; rfl
  | cons q rest ih =>
      intro d i hi
      have hstep : ((q :: rest).foldl (fun acc q => if q.1 = st.root then acc
          else acc.setPos q.1
            (if g.gridSnapEnabled then snapToGrid g q.2 else q.2)) d)
          = (rest.foldl (fun acc q => if q.1 = st.root then acc
            else acc.setPos q.1
              (if g.gridSnapEnabled then snapToGrid g q.2 else q.2))
            (if q.1 = st.root then d
             else d.setPos q.1
               (if g.gridSnapEnabled then snapToGrid g q.2 else q.2))) := by
        show (rest.foldl _ (if q.1 = st.root then d else _)) = _
        by_cases h : q.1 = st.root <;> simp [h]
      rw [hstep]
      have hi' : i = st.root ∨ i ∉ rest.map Prod.fst := by
        rcases hi with h | h
        · exact Or.inl h
        · exact Or.inr (fun hc => h (by simp [hc]))
      rw [ih _ i hi']
      by_cases h : q.1 = st.root
      · rw [if_pos h]
      · rw [if_neg h]
        apply find_setPos_ne
        rcases hi with h1 | h1
        · rw [h1]; exact fun he => h he.symm
        · exact fun he => h1 (by simp [← he])

lemma rollbackDescendants_posOf_root (g : GridSettings) (d : Doc)
    (st : DragState) :
    posOf (rollbackDescendants g d st) st.root = posOf d st.root := by
  unfold posOf
  rw [show rollbackDescendants g d st
      = st.originals.foldl (fun acc q => if q.1 = st.root then acc
        else acc.setPos q.1
          (if g.gridSnapEnabled then snapToGrid g q.2 else q.2)) d from rfl]
  rw [rollbackDescendants_find g st st.originals d st.root (Or.inl rfl)]

lemma rollbackDescendants_isSome (g : GridSettings) (st : DragState) :
    ∀ (l : List (Nat × Pt)) (d : Doc) (i : Nat),
      ((l.foldl (fun acc q => if q.1 = st.root then acc
        else acc.setPos q.1
          (if g.gridSnapEnabled then snapToGrid g q.2 else q.2)) d).find i).isSome
        = ((d.find i).isSome) := by
  intro l
  induction l with
  | nil => intro d i; rfl
  | cons q rest ih =>
      intro d i
      have hstep : ((q :: rest).foldl (fun acc q => if q.1 = st.root then acc
          else acc.setPos q.1
            (if g.gridSnapEnabled then snapToGrid g q.2 else q.2)) d)
          = (rest.foldl (fun acc q => if q.1 = st.root then acc
            else acc.setPos q.1
              (if g.gridSnapEnabled then snapToGrid g q.2 else q.2))
            (if q.1 = st.root then d
             else d.setPos q.1
               (if g.gridSnapEnabled then snapToGrid g q.2 else q.2))) := by
        by_cases h : q.1 = st.root <;> simp [h]
      rw [hstep, ih]
      by_cases h : q.1 = st.root
      · rw [if_pos h]
      · rw [if_neg h, isSome_find_setPos]

lemma lookupPos_eq (l : List (Nat × Pt)) (k : Nat) (v : Pt)
    (hnd : (l.map Prod.fst).Nodup) (hm : (k, v) ∈ l) :
    lookupPos l k = v := by
  induction l with
  | nil => cases hm
  | cons q rest ih =>
      rcases List.mem_cons.mp hm with h1 | h2
      · have hq : q.1 = k := by rw [← h1]
        unfold lookupPos
        have hstep : List.find? (fun q' => decide (q'.1 = k)) (q :: rest)
            = some q := by
          simp [List.find?_cons, hq]
        rw [hstep]
        show q.2 = v
        rw [← h1]
      · have hq : q.1 ≠ k := by
          intro he
          have hk : k ∈ rest.map Prod.fst := List.mem_map.mpr ⟨(k, v), h2, rfl⟩
          rw [← he] at hk
          exact (List.nodup_cons.mp hnd).1 hk
        have hstep : List.find? (fun q' => decide (q'.1 = k)) (q :: rest)
            = List.find? (fun q' => decide (q'.1 = k)) rest := by
          simp [List.find?_cons, hq]
        unfold lookupPos at ih ⊢
        rw [hstep]
        exact ih (List.nodup_cons.mp hnd).2 h2

lemma snapToGrid_idem (g : GridSettings) (p : Pt) (hgs : 0 < g.gridSize)
    (ht : 0 ≤ g.snapThreshold) :
    snapToGrid g (snapToGrid g p) = snapToGrid g p := by
  unfold snapToGrid
  by_cases h : g.gridSnapEnabled
  · simp only [h, not_true, if_false]
    have hx := snapCoord_idem g.gridSize g.snapThreshold p.x (ne_of_gt hgs) ht
    have hy := snapCoord_idem g.gridSize g.snapThreshold p.y (ne_of_gt hgs) ht
    simp [hx, hy]
  · simp [h]

end MindMap

namespace MindMap

lemma updateSubtreeDrag_isSome (g : GridSettings) (d : Doc) (st : DragState)
    (dx dy : ℚ) (i : Nat) :
    ((updateSubtreeDrag g d st dx dy).find i).isSome = (d.find i).isSome := by
  rw [updateSubtreeDrag_eq_setPosList, find_updateConnsTouching, find_setPosList]
  cases d.find i <;> rfl

lemma startPos_shift_eta (g : GridSettings) (p : Pt) :
    (⟨p.x + ((snapToGrid g p).x - p.x),
      p.y + ((snapToGrid g p).y - p.y)⟩ : Pt) = snapToGrid g p := by
  have h1 : p.x + ((snapToGrid g p).x - p.x) = (snapToGrid g p).x := by ring
  have h2 : p.y + ((snapToGrid g p).y - p.y) = (snapToGrid g p).y := by ring
  rw [h1, h2]

lemma endSubtreeDrag_eval (g : GridSettings) (d : Doc) (st : DragState)
    (hgs : 0 < g.gridSize) (ht : 0 ≤ g.snapThreshold)
    (hsnapOn : g.gridSnapEnabled = true)
    (hnd : (st.snapshot.map Prod.fst).Nodup)
    (hroot : (st.root, st.startPos) ∈ st.snapshot)
    (hex : ∀ q ∈ st.snapshot, (d.find q.1).isSome = true)
    (hcur : posOf d st.root = snapToGrid g st.startPos) :
    endSubtreeDrag g true d st
      = (updateAllConns (updateConnsTouching
          (updateSubtreeDrag g d st
            ((snapToGrid g st.startPos).x - st.startPos.x)
            ((snapToGrid g st.startPos).y - st.startPos.y))
          (st.snapshot.map Prod.fst)),
         [Pushed.subtreeMove st.root st.snapshot
           (st.snapshot.map (fun q => (q.1, snapToGrid g
             ⟨q.2.x + ((snapToGrid g st.startPos).x - st.startPos.x),
              q.2.y + ((snapToGrid g st.startPos).y - st.startPos.y)⟩)))]) := by
  have hlookup : lookupPos st.snapshot st.root = st.startPos :=
    lookupPos_eq _ _ _ hnd hroot
  have hsnapped : snapToGrid g (posOf d st.root) = snapToGrid g st.startPos := by
    rw [hcur, snapToGrid_idem g st.startPos hgs ht]
  have hnews : ∀ q ∈ st.snapshot,
      posOf (updateSubtreeDrag g d st
            ((snapToGrid g st.startPos).x - st.startPos.x)
            ((snapToGrid g st.startPos).y - st.startPos.y)) q.1
        = snapToGrid g
            ⟨q.2.x + ((snapToGrid g st.startPos).x - st.startPos.x),
             q.2.y + ((snapToGrid g st.startPos).y - st.startPos.y)⟩ := by
    intro q hq
    rw [updateSubtreeDrag_posOf_mem g d st _ _ q.1 q.2 hnd hq (hex q hq)]
    rw [hsnapOn]
    rfl
  unfold endSubtreeDrag
  rw [hsnapOn]
  simp only [ite_true, hlookup, hsnapped]
  refine congrArg₂ Prod.mk rfl ?_
  refine congrArg₂ List.cons ?_ rfl
  refine congrArg (Pushed.subtreeMove st.root st.snapshot) ?_
  exact List.map_congr_left (fun q hq => by rw [hnews q hq])

end MindMap

namespace MindMap

lemma release_collision_eval (g : GridSettings) (d : Doc) (st : DragState)
    (hgs : 0 < g.gridSize) (ht : 0 ≤ g.snapThreshold)
    (hsnapOn : g.gridSnapEnabled = true)
    (hnd : (st.snapshot.map Prod.fst).Nodup)
    (horig : st.originals = st.snapshot)
    (hroot : (st.root, st.startPos) ∈ st.snapshot)
    (hex : ∀ q ∈ st.snapshot, (d.find q.1).isSome = true)
    (hlane : (checkLaneInsertion d st.root (posOf d st.root)).1 = false)
    (hcol : (checkNodeCollision d st.root (posOf d st.root)
              || checkSubtreeCollision d st.root) = true)
    (hmoved : snapToGrid g st.startPos ≠ posOf d st.root) :
    (mouseReleaseSubtreeRoot g true d st st.startPos).2
      = [Pushed.subtreeMove st.root st.snapshot
          (st.snapshot.map (fun q => (q.1, snapToGrid g
            ⟨q.2.x + ((snapToGrid g st.startPos).x - st.startPos.x),
             q.2.y + ((snapToGrid g st.startPos).y - st.startPos.y)⟩)))] ∧
    (∀ q ∈ st.snapshot,
      posOf (mouseReleaseSubtreeRoot g true d st st.startPos).1 q.1
        = snapToGrid g
            ⟨q.2.x + ((snapToGrid g st.startPos).x - st.startPos.x),
             q.2.y + ((snapToGrid g st.startPos).y - st.startPos.y)⟩) ∧
    (∀ i, i ∉ st.snapshot.map Prod.fst →
      (mouseReleaseSubtreeRoot g true d st st.startPos).1.find i = d.find i) := by
  have hbsome : ∀ i, ((rollbackDescendants g d st).find i).isSome
      = (d.find i).isSome := fun i =>
    rollbackDescendants_isSome g st st.originals d i
  have hd1root : posOf (rollbackDescendants g d st) st.root = posOf d st.root :=
    rollbackDescendants_posOf_root g d st
  have hd2eq : setPosDragRoot g (rollbackDescendants g d st) st st.startPos
      = updateSubtreeDrag g (rollbackDescendants g d st) st
          ((snapToGrid g st.startPos).x - st.startPos.x)
          ((snapToGrid g st.startPos).y - st.startPos.y) := by
    unfold setPosDragRoot
    rw [hsnapOn]
    simp only [ite_true]
    rw [hd1root, if_neg hmoved]
  have hbranch : mouseReleaseSubtreeRoot g true d st st.startPos
      = endSubtreeDrag g true
          (updateIncidentConns
            (setPosDragRoot g (rollbackDescendants g d st) st st.startPos)
            st.root) st := by
    unfold mouseReleaseSubtreeRoot
    rw [hsnapOn]
    simp only [Bool.not_true, Bool.false_eq_true, if_false, hlane, hcol, ite_true,
      ite_false]
  have hD3some : ∀ q ∈ st.snapshot,
      ((updateIncidentConns
        (setPosDragRoot g (rollbackDescendants g d st) st st.startPos)
        st.root).find q.1).isSome = true := by
    intro q hq
    rw [find_updateIncidentConns, hd2eq, updateSubtreeDrag_isSome, hbsome]
    exact hex q hq
  have hD3root : posOf (updateIncidentConns
      (setPosDragRoot g (rollbackDescendants g d st) st st.startPos)
      st.root) st.root = snapToGrid g st.startPos := by
    show posOf (setPosDragRoot g (rollbackDescendants g d st) st st.startPos)
        st.root = snapToGrid g st.startPos
    rw [hd2eq]
    rw [updateSubtreeDrag_posOf_mem g _ st _ _ st.root st.startPos hnd hroot
      (by rw [hbsome]; exact hex (st.root, st.startPos) hroot)]
    rw [hsnapOn]
    simp only [ite_true]
    rw [startPos_shift_eta, snapToGrid_idem g st.startPos hgs ht]
  have hend := endSubtreeDrag_eval g
    (updateIncidentConns
      (setPosDragRoot g (rollbackDescendants g d st) st st.startPos) st.root)
    st hgs ht hsnapOn hnd hroot hD3some hD3root
  rw [hbranch, hend]
  refine ⟨rfl, ?_, ?_⟩
  · intro q hq
    show posOf (updateSubtreeDrag g
        (updateIncidentConns
          (setPosDragRoot g (rollbackDescendants g d st) st st.startPos) st.root)
        st ((snapToGrid g st.startPos).x - st.startPos.x)
        ((snapToGrid g st.startPos).y - st.startPos.y)) q.1 = _
    rw [updateSubtreeDrag_posOf_mem g _ st _ _ q.1 q.2 hnd hq (hD3some q hq)]
    rw [hsnapOn]
    rfl
  · intro i hi
    show (updateSubtreeDrag g
        (updateIncidentConns
          (setPosDragRoot g (rollbackDescendants g d st) st st.startPos) st.root)
        st ((snapToGrid g st.startPos).x - st.startPos.x)
        ((snapToGrid g st.startPos).y - st.startPos.y)).find i = d.find i
    rw [updateSubtreeDrag_find_not_mem g _ st _ _ i hi]
    rw [find_updateIncidentConns, hd2eq]
    rw [updateSubtreeDrag_find_not_mem g _ st _ _ i hi]
    rw [show rollbackDescendants g d st
        = st.originals.foldl (fun acc q => if q.1 = st.root then acc
          else acc.setPos q.1
            (if g.gridSnapEnabled then snapToGrid g q.2 else q.2)) d from rfl]
    rw [rollbackDescendants_find g st st.originals d i
      (Or.inr (by rw [horig]; exact hi))]

end MindMap

namespace MindMap

/-- Pre-drag scene of the C3 counterexample: root node 0 at `(5, 0)` with one
child 1 at `(173, 0)`, and an unrelated node 2 at `(150, 200)`. -/
def c3DocStart : Doc :=
  ⟨[⟨0, ⟨5, 0⟩, 128, 72, "r", [(0, 1)]⟩,
    ⟨1, ⟨173, 0⟩, 128, 72, "c", [(0, 0)]⟩,
    ⟨2, ⟨150, 200⟩, 128, 72, "o", []⟩],
   [⟨0, 0, 1, ⟨⟨69, 0, 89, 0⟩, ⟨89, 0, 89, 0⟩, ⟨89, 0, 109, 0⟩⟩⟩], 3, 1⟩

/-- Grid settings of the C3 counterexample: snapping on, grid 20,
threshold 10. -/
def c3Grid : GridSettings := ⟨true, 20, 10⟩

/-- The drag state captured by `begin_subtree_drag` on the root node 0. -/
def c3Drag : DragState := beginSubtreeDrag c3DocStart 0

/-- The scene after dragging the root to `(40, 200)` (an on-grid point, so
`itemChange` keeps it; the child follows to the snapped `(200, 200)`). -/
def c3DocDragged : Doc := setPosDragRoot c3Grid c3DocStart c3Drag ⟨40, 200⟩

lemma c3Drag_eq : c3Drag
    = ⟨0, ⟨5, 0⟩, [(0, ⟨5, 0⟩), (1, ⟨173, 0⟩)], [(0, ⟨5, 0⟩), (1, ⟨173, 0⟩)]⟩ := by
  rfl

lemma c3DocDragged_eq : c3DocDragged
    = ⟨[⟨0, ⟨40, 200⟩, 128, 72, "r", [(0, 1)]⟩,
        ⟨1, ⟨200, 200⟩, 128, 72, "c", [(0, 0)]⟩,
        ⟨2, ⟨150, 200⟩, 128, 72, "o", []⟩],
       [⟨0, 0, 1, ⟨⟨104, 200, 124, 200⟩, ⟨124, 200, 124, 200⟩,
          ⟨124, 200, 136, 200⟩⟩⟩], 3, 1⟩ := by
  rw [show c3DocDragged = setPosDragRoot c3Grid c3DocStart c3Drag ⟨40, 200⟩ from rfl,
    c3Drag_eq]
  norm_num [setPosDragRoot, updateSubtreeDrag, updateConnsTouching, updateConnGeom,
    updateConnection, unifiedVerticalX, Doc.setPos, Doc.find, posOf, c3Grid,
    c3DocStart, snapToGrid, snapCoord, gridMultiple, roundHalfEven,
    NodeItem.sceneRect, Rect.right, Rect.centerY, List.find?, List.foldl]

end MindMap

namespace MindMap

lemma c3_lane_eval :
    (checkLaneInsertion c3DocDragged 0 (posOf c3DocDragged 0)).1 = false := by
  rw [c3DocDragged_eq]
  norm_num [checkLaneInsertion, posOf, Doc.find, List.find?, List.filter,
    List.isEmpty, pySortBy, pyInsertSorted, laneInsertIndex]

lemma c3_col_eval :
    checkNodeCollision c3DocDragged 0 (posOf c3DocDragged 0) = true := by
  rw [c3DocDragged_eq]
  norm_num [checkNodeCollision, checkOwnVerticalLineOverlap, expandRect, posOf,
    Doc.find, List.find?, NodeItem.sceneRect, Rect.intersects, Rect.right,
    Rect.bottom, List.any]

lemma c3_hex : ∀ q ∈ c3Drag.snapshot, (c3DocDragged.find q.1).isSome = true := by
  rw [c3Drag_eq, c3DocDragged_eq]
  decide

lemma c3_moved_eval :
    snapToGrid c3Grid c3Drag.startPos ≠ posOf c3DocDragged c3Drag.root := by
  rw [c3Drag_eq, c3DocDragged_eq]
  norm_num [snapToGrid, snapCoord, gridMultiple, roundHalfEven, c3Grid, posOf,
    Doc.find, List.find?, Pt.mk.injEq]

end MindMap

namespace MindMap

/-- Claim C3 (corrected): when the drop position of a subtree drag collides
(and no lane insertion applies), the release handler does roll back the root
and the snapshotted descendants, but `end_subtree_drag` then re-applies grid
snapping relative to the snapshot root position and ALWAYS pushes a
`SubtreeMoveCommand` onto the undo stack.  With grid snapping enabled the
final position of every snapshotted node is
`snap_to_grid(snapshot position + (snap_to_grid(start) - start))` — equal to
its pre-drag position only when that expression is the identity — one command
is pushed even for a fully cancelled gesture, and nodes outside the snapshot
are untouched. -/
theorem subtree_drag_collision_release_spec
    (g : GridSettings) (d : Doc) (st : DragState)
    (hgs : 0 < g.gridSize) (ht : 0 ≤ g.snapThreshold)
    (hsnapOn : g.gridSnapEnabled = true)
    (hnd : (st.snapshot.map Prod.fst).Nodup)
    (horig : st.originals = st.snapshot)
    (hroot : (st.root, st.startPos) ∈ st.snapshot)
    (hex : ∀ q ∈ st.snapshot, (d.find q.1).isSome = true)
    (hlane : (checkLaneInsertion d st.root (posOf d st.root)).1 = false)
    (hcol : (checkNodeCollision d st.root (posOf d st.root)
              || checkSubtreeCollision d st.root) = true)
    (hmoved : snapToGrid g st.startPos ≠ posOf d st.root) :
    (mouseReleaseSubtreeRoot g true d st st.startPos).2
      = [Pushed.subtreeMove st.root st.snapshot
          (st.snapshot.map (fun q => (q.1, snapToGrid g
            ⟨q.2.x + ((snapToGrid g st.startPos).x - st.startPos.x),
             q.2.y + ((snapToGrid g st.startPos).y - st.startPos.y)⟩)))] ∧
    (∀ q ∈ st.snapshot,
      posOf (mouseReleaseSubtreeRoot g true d st st.startPos).1 q.1
        = snapToGrid g
            ⟨q.2.x + ((snapToGrid g st.startPos).x - st.startPos.x),
             q.2.y + ((snapToGrid g st.startPos).y - st.startPos.y)⟩) ∧
    (∀ i, i ∉ st.snapshot.map Prod.fst →
      (mouseReleaseSubtreeRoot g true d st st.startPos).1.find i = d.find i) :=
  release_collision_eval g d st hgs ht hsnapOn hnd horig hroot hex hlane hcol hmoved

set_option maxRecDepth 4096 in
/-- Counterexample to claim C3: dragging the subtree of node 0 of
`c3DocStart` from `(5, 0)` to `(40, 200)` collides with the unrelated node 2,
yet the release handling leaves the root at `(0, 0)` and the descendant at
`(160, 0)` — not their pre-drag coordinates `(5, 0)` and `(173, 0)` — and
pushes a `SubtreeMoveCommand` onto the undo history. -/
theorem subtree_drag_collision_not_rolled_back_cex :
    (checkLaneInsertion c3DocDragged 0 (posOf c3DocDragged 0)).1 = false ∧
    checkNodeCollision c3DocDragged 0 (posOf c3DocDragged 0) = true ∧
    posOf c3DocStart 0 = ⟨5, 0⟩ ∧
    posOf c3DocStart 1 = ⟨173, 0⟩ ∧
    posOf (mouseReleaseSubtreeRoot c3Grid true c3DocDragged c3Drag ⟨5, 0⟩).1 0
      = ⟨0, 0⟩ ∧
    posOf (mouseReleaseSubtreeRoot c3Grid true c3DocDragged c3Drag ⟨5, 0⟩).1 1
      = ⟨160, 0⟩ ∧
    (mouseReleaseSubtreeRoot c3Grid true c3DocDragged c3Drag ⟨5, 0⟩).2
      = [Pushed.subtreeMove 0 [(0, ⟨5, 0⟩), (1, ⟨173, 0⟩)]
          [(0, ⟨0, 0⟩), (1, ⟨160, 0⟩)]] := by
  have hsp : c3Drag.startPos = (⟨5, 0⟩ : Pt) := by rw [c3Drag_eq]
  obtain ⟨h1, h2, _⟩ := release_collision_eval c3Grid c3DocDragged c3Drag
    (by norm_num [c3Grid]) (by norm_num [c3Grid]) rfl
    (by rw [c3Drag_eq]; decide) (by rw [c3Drag_eq])
    (by rw [c3Drag_eq]; decide) c3_hex c3_lane_eval
    (by show (checkNodeCollision c3DocDragged 0 (posOf c3DocDragged 0)
          || checkSubtreeCollision c3DocDragged 0) = true
        rw [c3_col_eval]
        rfl)
    c3_moved_eval
  rw [hsp] at h1 h2
  have h5 := h2 (0, ⟨5, 0⟩) (by rw [c3Drag_eq]; decide)
  have h6 := h2 (1, ⟨173, 0⟩) (by rw [c3Drag_eq]; decide)
  norm_num [snapToGrid, snapCoord, gridMultiple, roundHalfEven, c3Grid] at h5 h6
  refine ⟨c3_lane_eval, c3_col_eval, rfl, rfl, h5, h6, ?_⟩
  have hs5 : snapToGrid c3Grid ⟨5, 0⟩ = (⟨0, 0⟩ : Pt) := by
    norm_num [snapToGrid, snapCoord, gridMultiple, roundHalfEven, c3Grid,
      Pt.mk.injEq]
  have hs0 : snapToGrid c3Grid ⟨0, 0⟩ = (⟨0, 0⟩ : Pt) := by
    norm_num [snapToGrid, snapCoord, gridMultiple, roundHalfEven, c3Grid,
      Pt.mk.injEq]
  have hs168 : snapToGrid c3Grid ⟨168, 0⟩ = (⟨160, 0⟩ : Pt) := by
    norm_num [snapToGrid, snapCoord, gridMultiple, roundHalfEven, c3Grid,
      Pt.mk.injEq]
  rw [h1, c3Drag_eq, hs5]
  simp only [List.map_cons, List.map_nil]
  norm_num
  rw [hs0, hs168]
  exact ⟨rfl, rfl⟩

/-- Witness for the amended C3 theorem at the concrete dragged scene
`c3DocDragged`: the release after the colliding drop pushes exactly the
`SubtreeMoveCommand` described by the theorem. -/
theorem subtree_drag_collision_release_spec_witness :
    (mouseReleaseSubtreeRoot c3Grid true c3DocDragged c3Drag c3Drag.startPos).2
      = [Pushed.subtreeMove c3Drag.root c3Drag.snapshot
          (c3Drag.snapshot.map (fun q => (q.1, snapToGrid c3Grid
            ⟨q.2.x + ((snapToGrid c3Grid c3Drag.startPos).x - c3Drag.startPos.x),
             q.2.y + ((snapToGrid c3Grid c3Drag.startPos).y
               - c3Drag.startPos.y)⟩)))] :=
  (subtree_drag_collision_release_spec c3Grid c3DocDragged c3Drag
    (by norm_num [c3Grid]) (by norm_num [c3Grid]) rfl
    (by rw [c3Drag_eq]; decide) (by rw [c3Drag_eq])
    (by rw [c3Drag_eq]; decide) c3_hex c3_lane_eval
    (by show (checkNodeCollision c3DocDragged 0 (posOf c3DocDragged 0)
          || checkSubtreeCollision c3DocDragged 0) = true
        rw [c3_col_eval]
        rfl)
    c3_moved_eval).1

end MindMap

/-! ### C7: `align_generations_and_avoid_line_overlap` -/

namespace MindMap

/-- "No node is ever pulled up, and the document structure is unchanged":
same node count, identical connection identities/endpoints, and per index the
same identity, size, text and adjacency with a Y coordinate at or below the
new one. -/
def NodesNotRaised (d d' : Doc) : Prop :=
  d'.nodes.length = d.nodes.length ∧
  d'.conns.map connProj = d.conns.map connProj ∧
  ∀ k (hk : k < d.nodes.length) (hk' : k < d'.nodes.length),
    (d'.nodes.get ⟨k, hk'⟩).nid = (d.nodes.get ⟨k, hk⟩).nid ∧
    (d'.nodes.get ⟨k, hk'⟩).w = (d.nodes.get ⟨k, hk⟩).w ∧
    (d'.nodes.get ⟨k, hk'⟩).h = (d.nodes.get ⟨k, hk⟩).h ∧
    (d'.nodes.get ⟨k, hk'⟩).text = (d.nodes.get ⟨k, hk⟩).text ∧
    (d'.nodes.get ⟨k, hk'⟩).edges = (d.nodes.get ⟨k, hk⟩).edges ∧
    (d.nodes.get ⟨k, hk⟩).pos.y ≤ (d'.nodes.get ⟨k, hk'⟩).pos.y

/-- As `NodesNotRaised`, with Y coordinates exactly preserved (the X-only
phases). -/
def YPreserved (d d' : Doc) : Prop :=
  d'.nodes.length = d.nodes.length ∧
  d'.conns.map connProj = d.conns.map connProj ∧
  ∀ k (hk : k < d.nodes.length) (hk' : k < d'.nodes.length),
    (d'.nodes.get ⟨k, hk'⟩).nid = (d.nodes.get ⟨k, hk⟩).nid ∧
    (d'.nodes.get ⟨k, hk'⟩).w = (d.nodes.get ⟨k, hk⟩).w ∧
    (d'.nodes.get ⟨k, hk'⟩).h = (d.nodes.get ⟨k, hk⟩).h ∧
    (d'.nodes.get ⟨k, hk'⟩).text = (d.nodes.get ⟨k, hk⟩).text ∧
    (d'.nodes.get ⟨k, hk'⟩).edges = (d.nodes.get ⟨k, hk⟩).edges ∧
    (d'.nodes.get ⟨k, hk'⟩).pos.y = (d.nodes.get ⟨k, hk⟩).pos.y

end MindMap

namespace MindMap

/-- Per-node relation underlying `NodesNotRaised`. -/
def SkelLe (n n' : NodeItem) : Prop :=
  n'.nid = n.nid ∧ n'.w = n.w ∧ n'.h = n.h ∧ n'.text = n.text ∧
  n'.edges = n.edges ∧ n.pos.y ≤ n'.pos.y

lemma yPreserved_notRaised {a b : Doc} (h : YPreserved a b) :
    NodesNotRaised a b := by
  obtain ⟨hl, hc, hp⟩ := h
  refine ⟨hl, hc, fun k hk hk' => ?_⟩
  obtain ⟨e1, e2, e3, e4, e5, e6⟩ := hp k hk hk'
  exact ⟨e1, e2, e3, e4, e5, le_of_eq e6.symm⟩

lemma notRaised_forall2 {d d' : Doc} (h : NodesNotRaised d d') :
    List.Forall₂ SkelLe d.nodes d'.nodes := by
  rw [List.forall₂_iff_get]
  exact ⟨h.1.symm, fun i h1 h2 => h.2.2 i h1 h2⟩

lemma find?_skelLe (i : Nat) :
    ∀ {l l' : List NodeItem}, List.Forall₂ SkelLe l l' →
    Option.Rel SkelLe (l.find? (fun n => decide (n.nid = i)))
      (l'.find? (fun n => decide (n.nid = i))) := by
  intro l l' h
  induction h with
  | nil => exact Option.Rel.none
  | @cons a b l₁ l₂ hab _ ih =>
      by_cases hq : a.nid = i
      · have hb : b.nid = i := by rw [hab.1, hq]
        have e1 : (a :: l₁).find? (fun n => decide (n.nid = i)) = some a := by
          simp [List.find?_cons, hq]
        have e2 : (b :: l₂).find? (fun n => decide (n.nid = i)) = some b := by
          simp [List.find?_cons, hb]
        rw [e1, e2]
        exact Option.Rel.some hab
      · have hb : ¬ b.nid = i := by rw [hab.1]; exact hq
        have e1 : (a :: l₁).find? (fun n => decide (n.nid = i))
            = l₁.find? (fun n => decide (n.nid = i)) := by
          simp [List.find?_cons, hq]
        have e2 : (b :: l₂).find? (fun n => decide (n.nid = i))
            = l₂.find? (fun n => decide (n.nid = i)) := by
          simp [List.find?_cons, hb]
        rw [e1, e2]
        exact ih

lemma notRaised_find_rel {d d' : Doc} (h : NodesNotRaised d d') (i : Nat) :
    Option.Rel SkelLe (d.find i) (d'.find i) :=
  find?_skelLe i (notRaised_forall2 h)

lemma notRaised_posOf_y {d d' : Doc} (h : NodesNotRaised d d') (i : Nat) :
    (posOf d i).y ≤ (posOf d' i).y := by
  have hrel := notRaised_find_rel h i
  unfold posOf
  cases hfd : d.find i with
  | none =>
      cases hfd' : d'.find i with
      | none => exact le_refl _
      | some m => rw [hfd, hfd'] at hrel; cases hrel
  | some n =>
      cases hfd' : d'.find i with
      | none => rw [hfd, hfd'] at hrel; cases hrel
      | some m =>
          rw [hfd, hfd'] at hrel
          cases hrel with
          | some hr => simpa using hr.2.2.2.2.2

lemma notRaised_nidMap {d d' : Doc} (h : NodesNotRaised d d') :
    d'.nodes.map NodeItem.nid = d.nodes.map NodeItem.nid := by
  apply List.ext_get
  · simp [h.1]
  · intro k h1 h2
    simp only [List.get_eq_getElem, List.getElem_map]
    have hk' : k < d'.nodes.length := by simpa using h1
    have hk : k < d.nodes.length := by simpa using h2
    exact (h.2.2 k hk hk').1

end MindMap

namespace MindMap

lemma yPreserved_flip {d d' : Doc} (h : YPreserved d d') : YPreserved d' d := by
  obtain ⟨hl, hc, hp⟩ := h
  refine ⟨hl.symm, hc.symm, fun k hk hk' => ?_⟩
  obtain ⟨e1, e2, e3, e4, e5, e6⟩ := hp k hk' hk
  exact ⟨e1.symm, e2.symm, e3.symm, e4.symm, e5.symm, e6.symm⟩

lemma yPreserved_posOf_y {d d' : Doc} (h : YPreserved d d') (i : Nat) :
    (posOf d' i).y = (posOf d i).y :=
  le_antisymm
    (notRaised_posOf_y (yPreserved_notRaised (yPreserved_flip h)) i)
    (notRaised_posOf_y (yPreserved_notRaised h) i)

end MindMap

namespace MindMap

end MindMap

namespace MindMap

lemma notRaised_nodup {d d' : Doc} (h : NodesNotRaised d d')
    (hnd : (d.nodes.map NodeItem.nid).Nodup) :
    (d'.nodes.map NodeItem.nid).Nodup := by
  rw [notRaised_nidMap h]
  exact hnd

end MindMap

namespace MindMap

/-- The minimum-gap chain property along a processing order: each node's top
edge clears the running bottom by at least the 5-unit gap, the running bottom
advancing to that node's bottom edge. -/
def gapChainAfter (r : Doc) : ℚ → List Nat → Prop
  | _, [] => True
  | b, m :: rest => (b + 5 ≤ (posOf r m).y - heightOf r m / 2) ∧
      gapChainAfter r ((posOf r m).y + heightOf r m / 2) rest

end MindMap

namespace MindMap

lemma posOf_eq_of_find_eq {r r' : Doc} {m : Nat} (h : r'.find m = r.find m) :
    posOf r' m = posOf r m := by
  unfold posOf
  rw [h]

lemma heightOf_eq_of_find_eq {r r' : Doc} {m : Nat} (h : r'.find m = r.find m) :
    heightOf r' m = heightOf r m := by
  unfold heightOf
  rw [h]

lemma gapChainAfter_congr :
    ∀ (s : List Nat) (b : ℚ) {r r' : Doc},
    (∀ m ∈ s, r'.find m = r.find m) →
    gapChainAfter r b s → gapChainAfter r' b s := by
  intro s
  induction s with
  | nil => intro b r r' _ _; trivial
  | cons m rest ih =>
      intro b r r' hf hc
      have hm := hf m (List.mem_cons_self m rest)
      refine ⟨?_, ?_⟩
      · rw [posOf_eq_of_find_eq hm, heightOf_eq_of_find_eq hm]
        exact hc.1
      · rw [posOf_eq_of_find_eq hm, heightOf_eq_of_find_eq hm]
        exact ih _ (fun x hx => hf x (List.mem_cons_of_mem m hx)) hc.2

end MindMap

namespace MindMap

end MindMap

namespace MindMap

end MindMap

namespace MindMap

end MindMap

namespace MindMap

end MindMap

namespace MindMap

end MindMap

namespace MindMap

end MindMap

namespace MindMap

end MindMap

namespace MindMap

end MindMap

namespace MindMap

end MindMap
